import Mathlib

set_option maxRecDepth 4000

/-!
Verification of the VkPlayground shader-cache and pipeline-fingerprint core.

The development shallowly embeds:
  * `hashCombine` from `shader_helper.hpp`;
  * the `VulkanPipelineBuilder` fingerprint walk from `vulkan_pipeline.cpp`
    (`getHash` and the nine per-block sub-hashes);
  * `ShaderHash` and the `VulkanShader` compile / cache machinery from
    `vulkan_shader.cpp` (`compile`, `tryLoadCachedCode`, `saveCodeCache`,
    `loadModule`, `loadModuleString`, `linkAndFinalize`, `getSpirvForStage`,
    `getSpirvFromName`, `addModule`, `addModuleString`, `enableCache`).

Modelling conventions:
  * `size_t` arithmetic is `Nat` with explicit `% 2^64` where overflow matters;
  * `std.hash` on integral and enumeration values is the identity (as in
    libstdc++ / MSVC); `std.hash` on strings and on floats is kept abstract as
    an explicit function argument (`hstr`, `hflt`); float-typed fields are
    carried as their 32-bit bit patterns (`Nat`);
  * the uninitialized local accumulator `size_t l_Hash;` that every per-block
    sub-hash declares is made explicit as an extra argument, so that the
    dependence of the result on that indeterminate value is expressible;
  * external collaborators (the slang backend, the filesystem, the device
    table) are oracles packaged in an environment structure.
-/

/-- `2^64`, the modulus of `size_t` arithmetic. -/
def U64 : Nat := 18446744073709551616

/-- `hashCombine` from `shader_helper.hpp`:
`p_Seed ^= l_Hash + 0x9e3779b9 + (p_Seed << 6) + (p_Seed >> 2)` where `l_Hash`
is `std.hash` of the element (identity for integral values, applied at call
sites for strings and floats). -/
def hashCombine (seed h : Nat) : Nat :=
  seed ^^^ ((h + 0x9e3779b9 + seed * 64 + seed / 4) % U64)

namespace Pipe

/-- A pNext extension-chain record, as a closed tagged union (spec §9 design
note): one constructor per `sType` recognized somewhere in
`vulkan_pipeline.cpp`, plus `unknown` for every unrecognized tag, carrying an
opaque payload so that "changing an unrecognized record's data" is
expressible. -/
inductive Ext where
  | divisor (ds : List (Nat × Nat))
  | domainOrigin (v : Nat)
  | coarseSampleOrder (ty : Nat) (orders : List (Nat × Nat × List (Nat × Nat × Nat)))
  | depthClampControl (mode : Nat) (range : Option (Nat × Nat))
  | depthClipControl (neg : Nat)
  | exclusiveScissor (rs : List (Nat × Nat × Nat × Nat))
  | shadingRateImage (enable : Nat) (palettes : List (List Nat))
  | viewportSwizzle (flags : Nat) (sw : List (Nat × Nat × Nat × Nat))
  | wScaling (enable : Nat) (cs : List (Nat × Nat))
  | depthBiasRep (v : Nat)
  | conservative (mode : Nat) (overSize : Nat)
  | rastDepthClip (flags : Nat) (enable : Nat)
  | lineState (mode stippled factor pat : Nat)
  | provokingVertex (v : Nat)
  | rastOrder (v : Nat)
  | rastStream (flags stream : Nat)
  | coverageModulation (flags mode tableEnable : Nat) (table : List Nat)
  | coverageReduction (flags mode : Nat)
  | coverageToColor (flags enable loc : Nat)
  | sampleLocations (enable perPixel gridW gridH : Nat) (locs : List (Nat × Nat))
  | colorWrite (enables : List Nat)
  | blendAdvanced (srcPre dstPre overlap : Nat)
  | unknown (tag : Nat) (payload : Nat)
deriving DecidableEq

/-- `VkVertexInputBindingDescription` (the fields the hash walk reads). -/
structure VB where
  binding : Nat
  stride : Nat
  inputRate : Nat
deriving DecidableEq

/-- `VkVertexInputAttributeDescription` (the fields the hash walk reads). -/
structure VA where
  location : Nat
  binding : Nat
  format : Nat
  offset : Nat
deriving DecidableEq

/-- `VkViewport`; the six float fields are carried as bit patterns. -/
structure Viewport where
  x : Nat
  y : Nat
  w : Nat
  h : Nat
  minD : Nat
  maxD : Nat
deriving DecidableEq

/-- `VkRect2D` flattened to the four scalars the hash walk reads. -/
structure Rect where
  ox : Nat
  oy : Nat
  w : Nat
  h : Nat
deriving DecidableEq

/-- `VkPipelineColorBlendAttachmentState` (hashed fields). -/
structure BlendAtt where
  blendEnable : Nat
  srcColor : Nat
  dstColor : Nat
  colorOp : Nat
  srcAlpha : Nat
  dstAlpha : Nat
  alphaOp : Nat
  writeMask : Nat
deriving DecidableEq

/-- `VkStencilOpState` (hashed fields). -/
structure StencilSide where
  failOp : Nat
  passOp : Nat
  depthFailOp : Nat
  compareOp : Nat
  compareMask : Nat
  writeMask : Nat
  reference : Nat
deriving DecidableEq

/-- The value state of a `VulkanPipelineBuilder` that the fingerprint walk
reads: scalar fields of the nine fixed-function blocks, their variable-length
arrays, their pNext chains, and the shader-stage list. Array pointers/counts
that the builder keeps in sync with its vectors are modelled as lists; the
viewport/scissor counts are kept separate from the arrays because
`setViewportState(count, count)` sets them independently. -/
structure Builder where
  shaderStages : List (Nat × String)
  vertexFlags : Nat
  vertexChain : List Ext
  vertexBindings : List VB
  vertexAttrs : List VA
  iaFlags : Nat
  iaTopology : Nat
  iaRestart : Nat
  tessEnabled : Bool
  tessFlags : Nat
  tessPatch : Nat
  tessChain : List Ext
  vpFlags : Nat
  vpChain : List Ext
  vpCount : Nat
  scCount : Nat
  viewports : List Viewport
  scissors : List Rect
  rsFlags : Nat
  rsChain : List Ext
  rsDepthClamp : Nat
  rsDiscard : Nat
  rsPolygonMode : Nat
  rsCullMode : Nat
  rsFrontFace : Nat
  rsDepthBias : Nat
  msFlags : Nat
  msChain : List Ext
  msSamples : Nat
  msSampleShading : Nat
  msMinSampleShading : Nat
  msAlphaToCoverage : Nat
  msAlphaToOne : Nat
  dsFlags : Nat
  dsDepthTest : Nat
  dsDepthWrite : Nat
  dsDepthCompare : Nat
  dsDepthBoundsTest : Nat
  dsStencilTest : Nat
  dsFront : StencilSide
  dsBack : StencilSide
  dsMinBounds : Nat
  dsMaxBounds : Nat
  cbFlags : Nat
  cbChain : List Ext
  cbLogicOpEnable : Nat
  cbLogicOp : Nat
  cbAtts : List BlendAtt
  cbConst0 : Nat
  cbConst1 : Nat
  cbConst2 : Nat
  cbConst3 : Nat
  dynFlags : Nat
  dynStates : List Nat
deriving DecidableEq

/-- The indeterminate initial values of the nine `size_t l_Hash;` locals that
the per-block sub-hash functions declare without an initializer. -/
structure Garb where
  vi : Nat
  ia : Nat
  te : Nat
  vp : Nat
  rs : Nat
  ms : Nat
  ds : Nat
  cb : Nat
  dy : Nat
deriving DecidableEq

/-- What the `VK_STRUCTURE_TYPE_PIPELINE_VERTEX_INPUT_DIVISOR_STATE_CREATE_INFO_EXT`
case of `getVertexInputHash` folds in: each divisor's `binding` then `divisor`. -/
def hashPairs (acc : Nat) (ds : List (Nat × Nat)) : Nat :=
  ds.foldl (fun a d => hashCombine (hashCombine a d.1) d.2) acc

/-- The switch body of `getVertexInputHash` on one chain record. -/
def vertexInputExt (acc : Nat) (e : Ext) : Nat :=
  match e with
  | .divisor ds => hashPairs acc ds
  | _ => acc

/-- The switch body of `getTessellationHash` on one chain record. -/
def tessExt (acc : Nat) (e : Ext) : Nat :=
  match e with
  | .domainOrigin v => hashCombine acc v
  | _ => acc

/-- The switch body of `getViewportStateHash` on one chain record. -/
def viewportExt (hflt : Nat → Nat) (acc : Nat) (e : Ext) : Nat :=
  match e with
  | .domainOrigin v => hashCombine acc v
  | .coarseSampleOrder ty orders =>
      let a := hashCombine acc ty
      orders.foldl (fun a o =>
        let a := hashCombine a o.1
        let a := hashCombine a o.2.1
        o.2.2.foldl (fun a l =>
          hashCombine (hashCombine (hashCombine a l.1) l.2.1) l.2.2) a) a
  | .depthClampControl mode range =>
      let a := hashCombine acc mode
      match range with
      | none => a
      | some r => hashCombine (hashCombine a (hflt r.1)) (hflt r.2)
  | .depthClipControl neg => hashCombine acc neg
  | .exclusiveScissor rs =>
      rs.foldl (fun a r =>
        hashCombine (hashCombine (hashCombine (hashCombine a r.1) r.2.1) r.2.2.1) r.2.2.2) acc
  | .shadingRateImage en ps =>
      let a := hashCombine acc en
      ps.foldl (fun a p => p.foldl hashCombine a) a
  | .viewportSwizzle fl sw =>
      let a := hashCombine acc fl
      sw.foldl (fun a s =>
        hashCombine (hashCombine (hashCombine (hashCombine a s.1) s.2.1) s.2.2.1) s.2.2.2) a
  | .wScaling en cs =>
      let a := hashCombine acc en
      cs.foldl (fun a c => hashCombine (hashCombine a (hflt c.1)) (hflt c.2)) a
  | _ => acc

/-- The switch body of `getRasterizationHash` on one chain record. -/
def rastExt (hflt : Nat → Nat) (acc : Nat) (e : Ext) : Nat :=
  match e with
  | .depthBiasRep v => hashCombine acc v
  | .conservative mode overSize => hashCombine (hashCombine acc mode) (hflt overSize)
  | .rastDepthClip fl en => hashCombine (hashCombine acc fl) en
  | .lineState mode stippled factor pat =>
      hashCombine (hashCombine (hashCombine (hashCombine acc mode) stippled) factor) pat
  | .provokingVertex v => hashCombine acc v
  | .rastOrder v => hashCombine acc v
  | .rastStream fl stream => hashCombine (hashCombine acc fl) stream
  | _ => acc

/-- The switch body of `getMultisampleHash` on one chain record. -/
def msExt (hflt : Nat → Nat) (acc : Nat) (e : Ext) : Nat :=
  match e with
  | .coverageModulation fl mode tableEnable table =>
      let a := hashCombine (hashCombine (hashCombine acc fl) mode) tableEnable
      table.foldl (fun a t => hashCombine a (hflt t)) a
  | .coverageReduction fl mode => hashCombine (hashCombine acc fl) mode
  | .coverageToColor fl en loc => hashCombine (hashCombine (hashCombine acc fl) en) loc
  | .sampleLocations en perPixel gridW gridH locs =>
      let a := hashCombine acc en
      if en != 0 then
        let a := hashCombine (hashCombine (hashCombine a perPixel) gridW) gridH
        locs.foldl (fun a l => hashCombine (hashCombine a (hflt l.1)) (hflt l.2)) a
      else a
  | _ => acc

/-- The switch body of `getColorBlendHash` on one chain record. -/
def cbExt (acc : Nat) (e : Ext) : Nat :=
  match e with
  | .colorWrite enables => enables.foldl hashCombine acc
  | .blendAdvanced srcPre dstPre overlap =>
      hashCombine (hashCombine (hashCombine acc srcPre) dstPre) overlap
  | _ => acc

/-- `getVertexInputHash`: inspects only the first pNext record (a single
`if (m_VertexInputState.pNext)` with a switch, no loop), then folds `flags`,
the binding descriptions and the attribute descriptions in order. `acc0` is
the indeterminate initial value of the uninitialized local `l_Hash`. -/
def getVertexInputHash (st : Builder) (acc0 : Nat) : Nat :=
  let h := acc0
  let h := match st.vertexChain with
    | [] => h
    | e :: _ => vertexInputExt h e
  let h := hashCombine h st.vertexFlags
  let h := st.vertexBindings.foldl
    (fun a b => hashCombine (hashCombine (hashCombine a b.binding) b.stride) b.inputRate) h
  st.vertexAttrs.foldl
    (fun a t =>
      hashCombine (hashCombine (hashCombine (hashCombine a t.location) t.binding) t.format)
        t.offset) h

/-- `getInputAssemblyHash`: flags, topology, primitiveRestartEnable. -/
def getInputAssemblyHash (st : Builder) (acc0 : Nat) : Nat :=
  hashCombine (hashCombine (hashCombine acc0 st.iaFlags) st.iaTopology) st.iaRestart

/-- `getTessellationHash`: inspects only the first pNext record, then flags
and patchControlPoints. -/
def getTessellationHash (st : Builder) (acc0 : Nat) : Nat :=
  let h := acc0
  let h := match st.tessChain with
    | [] => h
    | e :: _ => tessExt h e
  hashCombine (hashCombine h st.tessFlags) st.tessPatch

/-- Zero viewport, standing for the value read when the viewport loop indexes
past the stored array (the C++ code dereferences `pViewports` for
`viewportCount` entries regardless of how many were stored). -/
def zeroViewport : Viewport := ⟨0, 0, 0, 0, 0, 0⟩

/-- Zero scissor rectangle, same role as `zeroViewport`. -/
def zeroRect : Rect := ⟨0, 0, 0, 0⟩

/-- `getViewportStateHash`: walks the whole pNext chain (a `while` loop), then
flags, viewportCount, each viewport's six floats, `std.hash` of scissorCount
(double-hashed in the source; identity under the integral-hash model), and
each scissor's four scalars. -/
def getViewportStateHash (hflt : Nat → Nat) (st : Builder) (acc0 : Nat) : Nat :=
  let h := st.vpChain.foldl (viewportExt hflt) acc0
  let h := hashCombine h st.vpFlags
  let h := hashCombine h st.vpCount
  let h := (List.range st.vpCount).foldl
    (fun a i =>
      let v := st.viewports.getD i zeroViewport
      hashCombine (hashCombine (hashCombine (hashCombine (hashCombine (hashCombine a
        (hflt v.x)) (hflt v.y)) (hflt v.w)) (hflt v.h)) (hflt v.minD)) (hflt v.maxD)) h
  let h := hashCombine h st.scCount
  (List.range st.scCount).foldl
    (fun a i =>
      let r := st.scissors.getD i zeroRect
      hashCombine (hashCombine (hashCombine (hashCombine a r.ox) r.oy) r.w) r.h) h

/-- `getRasterizationHash`: walks the whole pNext chain, then the seven scalar
fields in source order. -/
def getRasterizationHash (hflt : Nat → Nat) (st : Builder) (acc0 : Nat) : Nat :=
  let h := st.rsChain.foldl (rastExt hflt) acc0
  let h := hashCombine h st.rsFlags
  let h := hashCombine h st.rsDepthClamp
  let h := hashCombine h st.rsDiscard
  let h := hashCombine h st.rsPolygonMode
  let h := hashCombine h st.rsCullMode
  let h := hashCombine h st.rsFrontFace
  hashCombine h st.rsDepthBias

/-- `getMultisampleHash`: walks the whole pNext chain, then the six scalar
fields in source order (the sample mask is not hashed; see the TODO in the
source). -/
def getMultisampleHash (hflt : Nat → Nat) (st : Builder) (acc0 : Nat) : Nat :=
  let h := st.msChain.foldl (msExt hflt) acc0
  let h := hashCombine h st.msFlags
  let h := hashCombine h st.msSamples
  let h := hashCombine h st.msSampleShading
  let h := hashCombine h (hflt st.msMinSampleShading)
  let h := hashCombine h st.msAlphaToCoverage
  hashCombine h st.msAlphaToOne

/-- `getDepthStencilHash`: the 23 scalar fields in source order (no pNext
walk in the source). -/
def getDepthStencilHash (hflt : Nat → Nat) (st : Builder) (acc0 : Nat) : Nat :=
  let h := hashCombine acc0 st.dsFlags
  let h := hashCombine h st.dsDepthTest
  let h := hashCombine h st.dsDepthWrite
  let h := hashCombine h st.dsDepthCompare
  let h := hashCombine h st.dsDepthBoundsTest
  let h := hashCombine h st.dsStencilTest
  let h := hashCombine h st.dsFront.failOp
  let h := hashCombine h st.dsFront.passOp
  let h := hashCombine h st.dsFront.depthFailOp
  let h := hashCombine h st.dsFront.compareOp
  let h := hashCombine h st.dsFront.compareMask
  let h := hashCombine h st.dsFront.writeMask
  let h := hashCombine h st.dsFront.reference
  let h := hashCombine h st.dsBack.failOp
  let h := hashCombine h st.dsBack.passOp
  let h := hashCombine h st.dsBack.depthFailOp
  let h := hashCombine h st.dsBack.compareOp
  let h := hashCombine h st.dsBack.compareMask
  let h := hashCombine h st.dsBack.writeMask
  let h := hashCombine h st.dsBack.reference
  let h := hashCombine h (hflt st.dsMinBounds)
  hashCombine h (hflt st.dsMaxBounds)

/-- `getColorBlendHash`: walks the whole pNext chain, then flags,
logicOpEnable, logicOp, each attachment's eight fields, and the four blend
constants (floats). -/
def getColorBlendHash (hflt : Nat → Nat) (st : Builder) (acc0 : Nat) : Nat :=
  let h := st.cbChain.foldl cbExt acc0
  let h := hashCombine h st.cbFlags
  let h := hashCombine h st.cbLogicOpEnable
  let h := hashCombine h st.cbLogicOp
  let h := st.cbAtts.foldl
    (fun a t =>
      let a := hashCombine a t.blendEnable
      let a := hashCombine a t.srcColor
      let a := hashCombine a t.dstColor
      let a := hashCombine a t.colorOp
      let a := hashCombine a t.srcAlpha
      let a := hashCombine a t.dstAlpha
      let a := hashCombine a t.alphaOp
      hashCombine a t.writeMask) h
  let h := hashCombine h (hflt st.cbConst0)
  let h := hashCombine h (hflt st.cbConst1)
  let h := hashCombine h (hflt st.cbConst2)
  hashCombine h (hflt st.cbConst3)

/-- `getDynamicStateHash`: flags, then each dynamic-state entry in order. -/
def getDynamicStateHash (st : Builder) (acc0 : Nat) : Nat :=
  let h := hashCombine acc0 st.dynFlags
  st.dynStates.foldl hashCombine h

/-- `VulkanPipelineBuilder.getHash(p_Hash)`: starts from `l_Hash = 0` (this
accumulator IS initialized in the source), combines the seed layout hash, each
shader stage's module stage (`stageOf`, the device shader-module lookup) and
entry-point name, then the nine block sub-hashes in source order (tessellation
only when enabled). `g` supplies the indeterminate initial value of each
sub-hash's uninitialized local accumulator. -/
def getHash (hflt : Nat → Nat) (hstr : String → Nat) (stageOf : Nat → Nat)
    (g : Garb) (st : Builder) (seed : Nat) : Nat :=
  let h := hashCombine 0 seed
  let h := st.shaderStages.foldl
    (fun a s => hashCombine (hashCombine a (stageOf s.1)) (hstr s.2)) h
  let h := hashCombine h (getVertexInputHash st g.vi)
  let h := hashCombine h (getInputAssemblyHash st g.ia)
  let h := if st.tessEnabled then hashCombine h (getTessellationHash st g.te) else h
  let h := hashCombine h (getViewportStateHash hflt st g.vp)
  let h := hashCombine h (getRasterizationHash hflt st g.rs)
  let h := hashCombine h (getMultisampleHash hflt st g.ms)
  let h := hashCombine h (getDepthStencilHash hflt st g.ds)
  let h := hashCombine h (getColorBlendHash hflt st g.cb)
  hashCombine h (getDynamicStateHash st g.dy)

/-- Zero stencil-op state ( `VkPipelineDepthStencilStateCreateInfo` is
value-initialized in the builder, so `front`/`back` start all-zero). -/
def zeroStencil : StencilSide := ⟨0, 0, 0, 0, 0, 0, 0⟩

/-- The builder state established by the `VulkanPipelineBuilder` constructor
(enumeration constants replaced by their Vulkan numeric values: topology
TRIANGLE_LIST = 3, polygonMode FILL = 0, cullMode BACK = 2, frontFace
COUNTER_CLOCKWISE = 0, compareOp LESS = 1, samples 1, logicOp COPY = 3;
the 0.0f blend constants have bit pattern 0). -/
def defaultBuilder : Builder where
  shaderStages := []
  vertexFlags := 0
  vertexChain := []
  vertexBindings := []
  vertexAttrs := []
  iaFlags := 0
  iaTopology := 3
  iaRestart := 0
  tessEnabled := false
  tessFlags := 0
  tessPatch := 1
  tessChain := []
  vpFlags := 0
  vpChain := []
  vpCount := 1
  scCount := 1
  viewports := []
  scissors := []
  rsFlags := 0
  rsChain := []
  rsDepthClamp := 0
  rsDiscard := 0
  rsPolygonMode := 0
  rsCullMode := 2
  rsFrontFace := 0
  rsDepthBias := 0
  msFlags := 0
  msChain := []
  msSamples := 1
  msSampleShading := 0
  msMinSampleShading := 0
  msAlphaToCoverage := 0
  msAlphaToOne := 0
  dsFlags := 0
  dsDepthTest := 1
  dsDepthWrite := 1
  dsDepthCompare := 1
  dsDepthBoundsTest := 0
  dsStencilTest := 0
  dsFront := zeroStencil
  dsBack := zeroStencil
  dsMinBounds := 0
  dsMaxBounds := 0
  cbFlags := 0
  cbChain := []
  cbLogicOpEnable := 0
  cbLogicOp := 3
  cbAtts := []
  cbConst0 := 0
  cbConst1 := 0
  cbConst2 := 0
  cbConst3 := 0
  dynFlags := 0
  dynStates := []

/-- All-zero garbage assignment for the uninitialized accumulators. -/
def garbZero : Garb := ⟨0, 0, 0, 0, 0, 0, 0, 0, 0⟩

/-- Garbage assignment where the vertex-input accumulator starts at 1. -/
def garbOne : Garb := ⟨1, 0, 0, 0, 0, 0, 0, 0, 0⟩

/-- A builder state reachable through the public API: default construction
plus `setViewportState` with one zero viewport and one zero scissor (so the
viewport loop stays inside its arrays). -/
def builderApi : Builder :=
  { defaultBuilder with viewports := [zeroViewport], scissors := [zeroRect] }

/-- A concrete divisor chain used as explicit input in the C2 counterexample. -/
def cexChainA : List Ext := [.divisor [(0, 1)], .divisor [(0, 2)]]

/-- A second divisor chain differing from `cexChainA` only in the second
(recognized) record's divisor value. -/
def cexChainB : List Ext := [.divisor [(0, 1)], .divisor [(0, 3)]]

/-- Two records are similar when they are equal, or both carry an unrecognized
tag (possibly with different payloads). -/
def extSim (e e' : Ext) : Prop :=
  e = e' ∨ ∃ t p p', e = .unknown t p ∧ e' = .unknown t p'

/-- Pointwise similarity of two extension chains. -/
def chainSim : List Ext → List Ext → Prop := List.Forall₂ extSim

end Pipe

namespace Shader

/-- `std.string` values and raw file contents, as byte lists. -/
abbrev Bytes := List Nat

/-- UTF-8-free rendering of Lean string literals into byte lists (all message
constants below are ASCII). -/
def strBytes (s : String) : Bytes := s.data.map Char.toNat

/-- `ShaderHash`: the ordered content blobs plus the mutable memo
`m_HashValue` (0 means "not yet computed"). -/
structure HashSt where
  data : List Bytes
  memo : Nat
deriving DecidableEq

/-- `ShaderHash::addString`. -/
def hashAddStr (st : HashSt) (s : Bytes) : HashSt :=
  { st with data := st.data ++ [s] }

/-- The `"name=value"` encoding used by `ShaderHash::addMacro`
(61 is the code of the equals sign). -/
def kvBytes (n v : Bytes) : Bytes := n ++ [61] ++ v

/-- `ShaderHash::addMacro(name, value)`: pushes the encoded pair. -/
def hashAddKV (st : HashSt) (n v : Bytes) : HashSt :=
  hashAddStr st (kvBytes n v)

/-- The combined hash over the stored blobs (`l_CombinedHash` loop of
`ShaderHash::getHash`); `hB` is `std.hash` on strings, kept abstract. -/
def hashValue (hB : Bytes → Nat) (d : List Bytes) : Nat :=
  d.foldl (fun a s => hashCombine a (hB s)) 0

/-- `ShaderHash::getHash` with its memoization: recompute only while the memo
is 0, then publish. Returns the value and the updated state. -/
def getHashS (hB : Bytes → Nat) (st : HashSt) : Nat × HashSt :=
  if st.memo = 0 then
    let v := hashValue hB st.data
    (v, { st with memo := v })
  else (st.memo, st)

/-- `VulkanShader::Result::Status`. -/
inductive Status where
  | notReady
  | cached
  | failed
  | compiled
deriving DecidableEq

/-- `VulkanShader::Result`. -/
structure SResult where
  status : Status
  error : Bytes
deriving DecidableEq

/-- `ModuleData::SourceType`. -/
inductive SrcType where
  | file
  | strSrc
deriving DecidableEq

/-- `ModuleData`. -/
structure ModuleData where
  data : Bytes
  type : SrcType
  name : Bytes
deriving DecidableEq

/-- `CachedCodes`: {stage, entry-point name, SPIR-V words}. -/
structure CachedCode where
  stage : Nat
  name : Bytes
  spirv : List Nat
deriving DecidableEq

/-- A program-layout entry point exposed by the slang backend after a
successful link: its slang stage, name, and the outcome of
`getEntryPointCode` on it. -/
structure EP where
  slangStage : Nat
  name : Bytes
  codeOk : Bool
  code : List Nat
deriving DecidableEq

/-- The external collaborators of `VulkanShader`: the filesystem, the slang
backend and `std.hash` on strings. -/
structure Env where
  hB : Bytes → Nat
  fileOk : Bytes → Bool
  fileBytes : Bytes → Bytes
  sessionOk : Bool
  loadOk : Bytes → Bytes → Bool
  epFlags : Bytes → List Bool
  linkOk : Bool
  layout : List EP
  slangVer : Bytes
  openTempOk : Bool
  cacheFile : Option Bytes

/-- The value state of a `VulkanShader`. `loadedLog` is ghost instrumentation
recording the module names handed to the backend loader, so that "no later
module is loaded" is expressible; it influences nothing. -/
structure ShaderSt where
  modules : List ModuleData
  cachedCodes : List CachedCode
  expectedStages : Nat
  expectedEPs : List Bytes
  hash : HashSt
  useCache : Bool
  hashFile : String
  result : SResult
  optimize : Bool
  components : Nat
  hasProgram : Bool
  loadedLog : List Bytes
deriving DecidableEq

/-- A fresh `VulkanShader{thread, optimize, mdefs}` (the constructor only
stores the compile definitions and flags; nothing is hashed). -/
def initShader (opt : Bool) : ShaderSt where
  modules := []
  cachedCodes := []
  expectedStages := 0
  expectedEPs := []
  hash := ⟨[], 0⟩
  useCache := false
  hashFile := ""
  result := ⟨.notReady, []⟩
  optimize := opt
  components := 0
  hasProgram := false
  loadedLog := []

/-- `getSlangStageFromVkStage` (shader_helper.hpp); `none` models the thrown
`std::runtime_error` on an unsupported stage. Vulkan stage bits on the left,
slang `SlangStage` values on the right. -/
def getSlangStageFromVkStage (s : Nat) : Option Nat :=
  if s = 0x1 then some 1
  else if s = 0x10 then some 5
  else if s = 0x20 then some 6
  else if s = 0x8 then some 4
  else if s = 0x2 then some 2
  else if s = 0x4 then some 3
  else if s = 0x100 then some 7
  else if s = 0x200 then some 9
  else if s = 0x400 then some 10
  else if s = 0x800 then some 11
  else if s = 0x1000 then some 8
  else if s = 0x2000 then some 12
  else if s = 0x80 then some 13
  else none

/-- `getVkStageFromSlangStage` (shader_helper.hpp). -/
def getVkStageFromSlangStage (s : Nat) : Option Nat :=
  if s = 1 then some 0x1
  else if s = 5 then some 0x10
  else if s = 6 then some 0x20
  else if s = 4 then some 0x8
  else if s = 2 then some 0x2
  else if s = 3 then some 0x4
  else if s = 7 then some 0x100
  else if s = 9 then some 0x200
  else if s = 10 then some 0x400
  else if s = 11 then some 0x800
  else if s = 8 then some 0x1000
  else if s = 12 then some 0x2000
  else if s = 13 then some 0x80
  else none

def errNotFinished : Bytes := strBytes "Shader compilation not finished"

def errLink : Bytes := strBytes "Failed to link shader modules"

def errSession : Bytes := strBytes "Failed to create Slang session"

def errOpenFile (f : Bytes) : Bytes := strBytes "Failed to open shader file: " ++ f

def errLoadModule (n : Bytes) : Bytes := strBytes "Failed to load shader module: " ++ n

def errEntryPoint (i : Nat) : Bytes :=
  strBytes ("Failed to get entry point by index: " ++ toString i)

def errFindStage (s : Nat) : Bytes :=
  strBytes ("Failed to find entry point for shader stage: " ++ toString s)

def errGetStage (s : Nat) : Bytes :=
  strBytes ("Failed to get SPIR-V for shader stage: " ++ toString s)

def errGetName (n : Bytes) : Bytes :=
  strBytes "Failed to get SPIR-V for shader entry point: " ++ n

/-- The entry-point registration loop of `loadModuleString`: for each defined
entry point in order, a failing `getDefinedEntryPoint` sets FAILED with the
index in the message and returns; a succeeding one is pushed onto
`m_SlangComponents`. -/
def regEPs (flags : List Bool) (i : Nat) (st : ShaderSt) : ShaderSt :=
  match flags with
  | [] => st
  | f :: rest =>
      if f then regEPs rest (i + 1) { st with components := st.components + 1 }
      else { st with result := ⟨.failed, errEntryPoint i⟩ }

/-- `VulkanShader::loadModuleString`. Note: the source has NO early-out on a
FAILED status here (unlike `loadModule`), so the backend loader is always
invoked. -/
def loadModuleString (env : Env) (src name : Bytes) (st : ShaderSt) : ShaderSt :=
  let st := { st with loadedLog := st.loadedLog ++ [name] }
  if env.loadOk name src then
    let st := { st with components := st.components + 1 }
    regEPs (env.epFlags name) 0 st
  else
    { st with result := ⟨.failed, errLoadModule name⟩ }

/-- `VulkanShader::loadModule`: early-out on FAILED, open the file (failure
sets FAILED), then delegate to `loadModuleString` (the search-path
bookkeeping has no observable effect here and is not modelled). -/
def loadModule (env : Env) (filename name : Bytes) (st : ShaderSt) : ShaderSt :=
  if st.result.status = .failed then st
  else if env.fileOk filename then
    loadModuleString env (env.fileBytes filename) name st
  else
    { st with result := ⟨.failed, errOpenFile filename⟩ }

/-- `VulkanShader::linkAndFinalize`: early-out on FAILED; on link failure set
FAILED with the link message; then — unconditionally in the source — clear
the component list and set the status to COMPILED. -/
def linkAndFinalize (env : Env) (st : ShaderSt) : ShaderSt :=
  if st.result.status = .failed then st
  else
    let st1 :=
      if env.linkOk then { st with hasProgram := true }
      else { st with result := ⟨.failed, errLink⟩ }
    { st1 with components := 0, result := { st1.result with status := .compiled } }

/-- `VulkanShader::buildSession`: a backend-session failure sets FAILED (the
caller `compile` ignores the returned flag and carries on). -/
def buildSession (env : Env) (st : ShaderSt) : ShaderSt :=
  if env.sessionOk then st else { st with result := ⟨.failed, errSession⟩ }

/-- `CACHE_MAGIC` = 0x53504956 ("SPIV"). -/
def CACHE_MAGIC : Nat := 0x53504956

/-- `CACHE_VERSION`. -/
def CACHE_VERSION : Nat := 1

/-- `SPIRV_PROFILE` = "spirv_1_5". -/
def profileBytes : Bytes := strBytes "spirv_1_5"

/-- Little-endian encoding of `n` in `k` bytes (how the fixed-width integers
of the cache file sit in memory on the little-endian targets the code runs
on). -/
def leBytes : Nat → Nat → Bytes
  | 0, _ => []
  | k + 1, n => n % 256 :: leBytes k (n / 256)

/-- Little-endian decoding of a byte list. -/
def leVal (bs : Bytes) : Nat := bs.foldr (fun b a => b + 256 * a) 0

/-- An `std.ifstream` over the cache file: contents, read position, and the
fail state. Once a read hits end-of-file the fail bit is set and every later
read extracts nothing (C++ stream semantics, which `tryLoadCachedCode` never
checks). -/
structure IStream where
  data : Bytes
  pos : Nat
  failBit : Bool
deriving DecidableEq

/-- `l_File.read(dst, dst.length)`: on success consume and return the bytes;
on a short read return the available bytes followed by the untouched tail of
the destination buffer and set the fail bit; with the fail bit already set,
extract nothing and leave the destination as it was. -/
def readInto (s : IStream) (dst : Bytes) : IStream × Bytes :=
  if s.failBit then (s, dst)
  else
    let avail := s.data.length - s.pos
    if dst.length ≤ avail then
      ({ s with pos := s.pos + dst.length }, (s.data.drop s.pos).take dst.length)
    else
      ({ s with pos := s.data.length, failBit := true },
        s.data.drop s.pos ++ dst.drop avail)

/-- Group a byte list into little-endian 32-bit words (how the SPIR-V byte
buffer is reinterpreted as `uint32_t` words). -/
def toWords : Bytes → List Nat
  | b0 :: b1 :: b2 :: b3 :: rest => leVal [b0, b1, b2, b3] :: toWords rest
  | _ => []

/-- The byte image of a default-initialized `CacheHeader` (the destination
buffer of the header read): magic and version carry their member initializers,
the string fields and the content hash are zero. -/
def defaultHeaderBytes : Bytes :=
  leBytes 4 CACHE_MAGIC ++ leBytes 4 CACHE_VERSION ++
    List.replicate 32 0 ++ List.replicate 16 0 ++ leBytes 8 0

/-- A fixed-width, null-padded header string field as `strncpy_s` leaves it:
at most `k - 1` payload bytes, the rest zero. -/
def fixedField (k : Nat) (b : Bytes) : Bytes :=
  b.take (k - 1) ++ List.replicate (k - (b.take (k - 1)).length) 0

/-- The structured content of a `CacheHeader`. -/
structure HeaderS where
  magic : Nat
  version : Nat
  slangVer : Bytes
  profile : Bytes
  contentHash : Nat
deriving DecidableEq

/-- The 64-byte memory image of a `CacheHeader` (4 + 4 + 32 + 16 + 8, no
padding). -/
def encodeHeaderS (h : HeaderS) : Bytes :=
  leBytes 4 h.magic ++ leBytes 4 h.version ++ fixedField 32 h.slangVer ++
    fixedField 16 h.profile ++ leBytes 8 h.contentHash

/-- The C string held in a fixed-width field: bytes up to the first NUL
(`strcmp` compares these). -/
def cString (bs : Bytes) : Bytes := bs.takeWhile (fun b => b != 0)

/-- One record of the per-stage loop in `tryLoadCachedCode`: stage, name
length, name bytes, code size, code bytes — each read with its exact declared
size, with no check of the stream state. -/
def readRec (s : IStream) : IStream × CachedCode :=
  let (s, stB) := readInto s (List.replicate 4 0)
  let (s, nlB) := readInto s (List.replicate 4 0)
  let nl := leVal nlB
  let (s, nmB) := readInto s (List.replicate nl 0)
  let (s, csB) := readInto s (List.replicate 4 0)
  let cs := leVal csB
  let (s, cdB) := readInto s (List.replicate cs 0)
  (s, ⟨leVal stB, nmB, toWords (cdB.take (cs / 4 * 4))⟩)

/-- The record loop, accumulating onto `m_CachedCodes` in order. -/
def readRecs : Nat → IStream → List CachedCode → IStream × List CachedCode
  | 0, s, acc => (s, acc)
  | n + 1, s, acc =>
      let (s, r) := readRec s
      readRecs n s (acc ++ [r])

/-- The expected-stage validation loop: every bit set in `expected` must have
a loaded record with exactly that stage bit. -/
def stageCheckOk (expected : Nat) (codes : List CachedCode) : Bool :=
  (List.range 32).all fun b =>
    ((expected >>> b) % 2 == 0) || codes.any (fun r => r.stage == 1 <<< b)

/-- The expected-entry-point validation loop. -/
def epCheckOk (eps : List Bytes) (codes : List CachedCode) : Bool :=
  eps.all fun n => codes.any (fun r => r.name == n)

/-- `VulkanShader::tryLoadCachedCode`: open the file (absence is a miss),
read the header into its default-initialized destination, reject on
magic/version/profile/content-hash mismatch, read the declared record count
and each record (pushing onto the existing `m_CachedCodes`), then reject if a
declared expected stage or entry-point name is absent. Returns the decision
and the resulting `m_CachedCodes`. The stream's fail state is never
consulted. -/
def tryLoadCachedCode (file : Option Bytes) (hashValue expStages : Nat)
    (expEPs : List Bytes) (cached0 : List CachedCode) : Bool × List CachedCode :=
  match file with
  | none => (false, cached0)
  | some bytes =>
      let s0 : IStream := ⟨bytes, 0, false⟩
      let (s1, hdr) := readInto s0 defaultHeaderBytes
      if leVal (hdr.take 4) ≠ CACHE_MAGIC then (false, cached0)
      else if leVal ((hdr.drop 4).take 4) ≠ CACHE_VERSION then (false, cached0)
      else if cString ((hdr.drop 40).take 16) ≠ profileBytes then (false, cached0)
      else if leVal ((hdr.drop 56).take 8) ≠ hashValue then (false, cached0)
      else
        let (s2, cntB) := readInto s1 (List.replicate 4 0)
        let recs := (readRecs (leVal cntB) s2 []).2
        let codes := cached0 ++ recs
        if expStages ≠ 0 ∧ stageCheckOk expStages codes = false then (false, codes)
        else if expEPs ≠ [] ∧ epCheckOk expEPs codes = false then (false, codes)
        else (true, codes)

/-- The cache-lookup key computed in `VulkanShader::compile` (lines 179-181):
`m_Hash.getHash()`, then the optimization flag, then the target profile
string. -/
def compileLookupKey (hB : Bytes → Nat) (h0 : Nat) (opt : Bool) : Nat :=
  hashCombine (hashCombine h0 (if opt then 1 else 0)) (hB profileBytes)

/-- The content hash written into the header in `VulkanShader::saveCodeCache`
(lines 358-361): `m_Hash.getHash()`, then the optimization flag, then the
target profile string. -/
def saveContentHash (hB : Bytes → Nat) (h0 : Nat) (opt : Bool) : Nat :=
  hashCombine (hashCombine h0 (if opt then 1 else 0)) (hB profileBytes)

/-- The five writes `saveCodeCache` issues for one record. -/
def recordChunks (r : CachedCode) : List Bytes :=
  [leBytes 4 r.stage, leBytes 4 r.name.length, r.name,
    leBytes 4 (r.spirv.length * 4), (r.spirv.map (leBytes 4)).flatten]

/-- A filesystem operation issued by `saveCodeCache`. -/
inductive FsOp where
  | mkdirs
  | fopen (p : String)
  | fwrite (p : String) (b : Bytes)
  | fclose (p : String)
  | frename (src dst : String)
deriving DecidableEq

/-- A sequence of writes to one path. -/
def writeOps (p : String) (bs : List Bytes) : List FsOp := bs.map (FsOp.fwrite p)

/-- Filesystem semantics for the save trace: opening truncates, writes
append, rename moves the source content over the destination. -/
def fsApply (fs : String → Option Bytes) : FsOp → String → Option Bytes
  | .mkdirs => fs
  | .fopen p => fun q => if q = p then some [] else fs q
  | .fwrite p b => fun q => if q = p then some ((fs p).getD [] ++ b) else fs q
  | .fclose _ => fs
  | .frename src dst => fun q =>
      if q = src then none else if q = dst then fs src else fs q

/-- Run a trace of filesystem operations. -/
def fsRun (fs : String → Option Bytes) (ops : List FsOp) : String → Option Bytes :=
  ops.foldl fsApply fs

/-- Result of a `compile`-like call: the new object state, the filesystem
trace of any cache save, and whether execution crashed (an uncaught exception
or undefined behaviour such as a null-session/program dereference; also used
as the out-of-fuel marker of the bounded recursion). -/
structure COut where
  st : ShaderSt
  ops : List FsOp
  crash : Bool
deriving DecidableEq

/-- Result of a `getSpirv*` call. -/
structure GOut where
  st : ShaderSt
  code : List Nat
  ops : List FsOp
  crash : Bool
deriving DecidableEq

/-- `VulkanShader::getSpirvForStage`, parameterized by the forced-recompile
continuation `rc` (which the driver instantiates with `compile(true)`): fail
with the not-ready error unless COMPILED or CACHED; return a cached stage
match; otherwise, while CACHED, force a recompile; then locate the layout
entry point with the requested stage and extract its code. -/
def getSpirvWith (rc : ShaderSt → COut) (env : Env) (st : ShaderSt) (stage : Nat) : GOut :=
  if st.result.status ≠ .compiled ∧ st.result.status ≠ .cached then
    ⟨{ st with result := ⟨.failed, errNotFinished⟩ }, [], [], false⟩
  else
    match st.cachedCodes.find? (fun c => c.stage == stage) with
    | some c => ⟨st, c.spirv, [], false⟩
    | none =>
        let r : COut := if st.result.status = .cached then rc st else ⟨st, [], false⟩
        let st := r.st
        if r.crash then ⟨st, [], r.ops, true⟩
        else if st.hasProgram = false then ⟨st, [], r.ops, true⟩
        else
          match getSlangStageFromVkStage stage with
          | none => ⟨st, [], r.ops, true⟩
          | some ss =>
              match env.layout.find? (fun ep => ep.slangStage == ss) with
              | none => ⟨{ st with result := ⟨.failed, errFindStage stage⟩ }, [], r.ops, false⟩
              | some ep =>
                  if ep.codeOk then ⟨st, ep.code, r.ops, false⟩
                  else ⟨{ st with result := ⟨.failed, errGetStage stage⟩ }, [], r.ops, false⟩

/-- `VulkanShader::getSpirvFromName`, parameterized like `getSpirvWith`.
Note the source initializes the entry-point index to 0 (not UINT32_MAX), so a
name with no match silently extracts entry point 0. -/
def getSpirvFromNameWith (rc : ShaderSt → COut) (env : Env) (st : ShaderSt)
    (name : Bytes) : GOut :=
  if st.result.status ≠ .compiled ∧ st.result.status ≠ .cached then
    ⟨{ st with result := ⟨.failed, errNotFinished⟩ }, [], [], false⟩
  else
    match st.cachedCodes.find? (fun c => c.name == name) with
    | some c => ⟨st, c.spirv, [], false⟩
    | none =>
        let r : COut := if st.result.status = .cached then rc st else ⟨st, [], false⟩
        let st := r.st
        if r.crash then ⟨st, [], r.ops, true⟩
        else if st.hasProgram = false then ⟨st, [], r.ops, true⟩
        else
          let idx := (env.layout.findIdx? (fun ep => ep.name == name)).getD 0
          match env.layout[idx]? with
          | none => ⟨{ st with result := ⟨.failed, errGetName name⟩ }, [], r.ops, false⟩
          | some ep =>
              if ep.codeOk then ⟨st, ep.code, r.ops, false⟩
              else ⟨{ st with result := ⟨.failed, errGetName name⟩ }, [], r.ops, false⟩

/-- Result of the entry-point extraction loop of `saveCodeCache`. -/
structure LoopOut where
  st : ShaderSt
  ops : List FsOp
  crash : Bool
  aborted : Bool
deriving DecidableEq

/-- The extraction loop of `saveCodeCache`: for every layout entry point,
convert its slang stage (a failing conversion throws), extract its SPIR-V via
`getSpirvForStage`, abort the save on a FAILED status, otherwise push the
record onto `m_CachedCodes`. -/
def saveLoop (rc : ShaderSt → COut) (env : Env) : List EP → ShaderSt → LoopOut
  | [], st => ⟨st, [], false, false⟩
  | ep :: rest, st =>
      match getVkStageFromSlangStage ep.slangStage with
      | none => ⟨st, [], true, false⟩
      | some stage =>
          let g := getSpirvWith rc env st stage
          if g.crash then ⟨g.st, g.ops, true, false⟩
          else if g.st.result.status = .failed then ⟨g.st, g.ops, false, true⟩
          else
            let st :=
              { g.st with cachedCodes := g.st.cachedCodes ++ [⟨stage, ep.name, g.code⟩] }
            let o := saveLoop rc env rest st
            ⟨o.st, g.ops ++ o.ops, o.crash, o.aborted⟩

/-- `VulkanShader::saveCodeCache`: no-op unless COMPILED; create the cache
directory; open the temporary sibling path `m_HashFile + ".tmp"` (failure
logs and returns); write the header (with the recomputed content hash); run
the extraction loop (a failure aborts the save, leaving the temp file
unrenamed); write the record count and every record; close the stream; and
only then rename the temporary file over the final cache path. -/
def saveWith (rc : ShaderSt → COut) (env : Env) (st : ShaderSt) : COut :=
  if st.result.status ≠ .compiled then ⟨st, [], false⟩
  else
    let tmp := st.hashFile ++ ".tmp"
    if env.openTempOk = false then ⟨st, [FsOp.mkdirs], false⟩
    else
      let (h0, hs) := getHashS env.hB st.hash
      let st := { st with hash := hs }
      let key := saveContentHash env.hB h0 st.optimize
      let hdrBytes :=
        encodeHeaderS ⟨CACHE_MAGIC, CACHE_VERSION, env.slangVer, profileBytes, key⟩
      let pre := [FsOp.mkdirs, FsOp.fopen tmp, FsOp.fwrite tmp hdrBytes]
      let o := saveLoop rc env env.layout st
      if o.crash || o.aborted then ⟨o.st, pre ++ o.ops, o.crash⟩
      else
        let recs := o.st.cachedCodes
        let tailOps :=
          writeOps tmp (leBytes 4 recs.length :: (recs.map recordChunks).flatten)
        ⟨o.st, pre ++ o.ops ++ tailOps ++ [FsOp.fclose tmp, FsOp.frename tmp st.hashFile],
          false⟩

/-- The live-compilation tail of `VulkanShader::compile` (everything after
the cache-lookup block): build the session (its failure is recorded but the
returned flag is ignored by `compile`), load every module in order, link, and
save the cache when enabled. -/
def liveCompileWith (rc : ShaderSt → COut) (env : Env) (st : ShaderSt) : COut :=
  let st := buildSession env st
  let st := st.modules.foldl
    (fun s m =>
      match m.type with
      | .file => loadModule env m.data m.name s
      | .strSrc => loadModuleString env m.data m.name s) st
  let st := linkAndFinalize env st
  if st.useCache then saveWith rc env st
  else ⟨st, [], false⟩

/-- `VulkanShader::compile(p_ForceCompile)`, with fuel bounding the nested
`compile(true)` recursion through `getSpirvForStage` (running out of fuel is
flagged like a crash; every theorem below supplies enough fuel). With caching
enabled: compute the lookup key, attempt the cache load (whose partial
records land in `m_CachedCodes` even on rejection), on a hit set CACHED and
return unless forced; then run the live-compilation tail. -/
def compileF (env : Env) : Nat → ShaderSt → Bool → COut
  | 0, st, _ => ⟨st, [], true⟩
  | fuel + 1, st, force =>
      let hitSt : ShaderSt × Bool :=
        if st.useCache then
          let (h0, hs) := getHashS env.hB st.hash
          let st := { st with hash := hs }
          let key := compileLookupKey env.hB h0 st.optimize
          let lr := tryLoadCachedCode env.cacheFile key st.expectedStages
            st.expectedEPs st.cachedCodes
          let st := { st with cachedCodes := lr.2 }
          if lr.1 then
            ({ st with result := { st.result with status := .cached } }, true)
          else (st, false)
        else (st, false)
      if hitSt.2 && !force then ⟨hitSt.1, [], false⟩
      else liveCompileWith (fun s => compileF env fuel s true) env hitSt.1

/-- `compile` with the recompile continuation closed off. -/
def compile (env : Env) (fuel : Nat) (st : ShaderSt) (force : Bool) : COut :=
  compileF env fuel st force

/-- `getSpirvForStage` as called by clients. -/
def getSpirvForStage (env : Env) (fuel : Nat) (st : ShaderSt) (stage : Nat) : GOut :=
  getSpirvWith (fun s => compileF env fuel s true) env st stage

/-- `getSpirvFromName` as called by clients. -/
def getSpirvFromName (env : Env) (fuel : Nat) (st : ShaderSt) (name : Bytes) : GOut :=
  getSpirvFromNameWith (fun s => compileF env fuel s true) env st name

/-- The configuration calls a caller can issue before `compile`. -/
inductive ApiOp where
  | enable (path : String)
  | addMod (filename name : Bytes)
  | addModStr (src name : Bytes)
  | addDep (filename : Bytes)
deriving DecidableEq

/-- One configuration call: `enableCache` raises the flag and records the
path; `addModule` appends the module and, only when the cache flag is already
up, folds the file content plus the `type`/`name` key-value markers into the
content hash; `addModuleString` does the same with the inline source;
`addCacheDependency` folds a file's content when the flag is up. -/
def apiStep (env : Env) (st : ShaderSt) : ApiOp → ShaderSt
  | .enable p => { st with useCache := true, hashFile := p }
  | .addMod f n =>
      let st := { st with modules := st.modules ++ [(⟨f, .file, n⟩ : ModuleData)] }
      if st.useCache then
        { st with hash := hashAddKV (hashAddKV (hashAddStr st.hash (env.fileBytes f))
            (strBytes "type") (strBytes "file")) (strBytes "name") n }
      else st
  | .addModStr s n =>
      let st := { st with modules := st.modules ++ [(⟨s, .strSrc, n⟩ : ModuleData)] }
      if st.useCache then
        { st with hash := hashAddKV (hashAddKV (hashAddStr st.hash s)
            (strBytes "type") (strBytes "str")) (strBytes "name") n }
      else st
  | .addDep f =>
      if st.useCache then { st with hash := hashAddStr st.hash (env.fileBytes f) }
      else st

/-- Run a sequence of configuration calls. -/
def runApi (env : Env) (st : ShaderSt) (ops : List ApiOp) : ShaderSt :=
  ops.foldl (apiStep env) st

/-- The cache-lookup key `compile` would compute for a state. -/
def stateKey (env : Env) (st : ShaderSt) : Nat :=
  compileLookupKey env.hB (getHashS env.hB st.hash).1 st.optimize

/-- The byte image of one record as `saveCodeCache` writes it. -/
def encodeRecord (r : CachedCode) : Bytes := (recordChunks r).flatten

/-- The byte image of a complete cache file as `saveCodeCache` writes it. -/
def encodeFile (sv : Bytes) (key : Nat) (recs : List CachedCode) : Bytes :=
  encodeHeaderS ⟨CACHE_MAGIC, CACHE_VERSION, sv, profileBytes, key⟩ ++
    leBytes 4 recs.length ++ (recs.map encodeRecord).flatten

/-- A cache file whose header passes every check and which declares one
record but ends immediately after the count: the declared record bytes are
absent. -/
def truncatedFile : Bytes :=
  encodeHeaderS ⟨CACHE_MAGIC, CACHE_VERSION, [], profileBytes, 12345⟩ ++ leBytes 4 1

/-- The bytes an operation writes (empty for non-write operations). -/
def fsPayload : FsOp → Bytes
  | .fwrite _ b => b
  | _ => []

/-- The concatenation of all byte payloads written by a trace — the complete
file content a reader of the temp path would see at the end. -/
def writesJoin (ops : List FsOp) : Bytes :=
  (ops.map fsPayload).flatten

/-- `op` leaves the content of path `q` untouched. -/
def opKeeps (q : String) : FsOp → Prop
  | .mkdirs => True
  | .fopen p => p ≠ q
  | .fwrite p _ => p ≠ q
  | .fclose _ => True
  | .frename src dst => src ≠ q ∧ dst ≠ q

/-- The integer fields of a record fit the 32-bit widths the format declares
(what `saveCodeCache`'s `static_cast<uint32_t>` truncations presuppose). -/
def recBounded (r : CachedCode) : Prop :=
  r.stage < 2 ^ 32 ∧ r.name.length < 2 ^ 32 ∧ r.spirv.length * 4 < 2 ^ 32 ∧
    ∀ w ∈ r.spirv, w < 2 ^ 32

/-- The pieces of a shader state that determine the cache-lookup key. -/
def keyR (s t : ShaderSt) : Prop :=
  s.useCache = t.useCache ∧ s.hash = t.hash ∧ s.optimize = t.optimize

/-- A single vertex-stage entry point whose extraction succeeds. -/
def epW : EP := ⟨1, strBytes "main", true, [7, 8, 9]⟩

/-- A fully cooperative environment: every file opens, the backend loads and
links everything, the layout exposes `epW`. -/
def envW : Env where
  hB := fun b => b.length
  fileOk := fun _ => true
  fileBytes := fun f => f
  sessionOk := true
  loadOk := fun _ _ => true
  epFlags := fun _ => [true]
  linkOk := true
  layout := [epW]
  slangVer := strBytes "slang-tag"
  openTempOk := true
  cacheFile := none

/-- Like `envW` but every module load fails. -/
def envLoadFail : Env := { envW with loadOk := fun _ _ => false }

/-- Like `envW` but the final link fails. -/
def envLinkFail : Env := { envW with linkOk := false }

/-- A shader with two inline-string modules named m1 and m2. -/
def stTwoMods : ShaderSt :=
  { initShader false with
      modules := [⟨strBytes "srcA", .strSrc, strBytes "m1"⟩,
        ⟨strBytes "srcB", .strSrc, strBytes "m2"⟩] }

/-- A shader with one inline-string module. -/
def stOneMod : ShaderSt :=
  { initShader false with modules := [⟨strBytes "srcA", .strSrc, strBytes "m1"⟩] }

/-- A shader observed right after a cache hit: status CACHED, but the cached
records do not contain the vertex stage. -/
def stCached : ShaderSt :=
  { initShader false with
      modules := [⟨strBytes "srcA", .strSrc, strBytes "m1"⟩],
      useCache := true, hashFile := "shader.cache",
      hash := ⟨[strBytes "srcA"], 0⟩,
      result := ⟨.cached, []⟩ }

/-- A compiled shader about to save its cache. -/
def stCompiled : ShaderSt :=
  { initShader false with
      modules := [⟨strBytes "srcA", .strSrc, strBytes "m1"⟩],
      useCache := true, hashFile := "shader.cache",
      hash := ⟨[strBytes "srcA"], 0⟩,
      result := ⟨.compiled, []⟩, hasProgram := true }

/-- A cache-enabled shader before its first compile (the cache file is absent
in `envW`, so the lookup will miss). -/
def stMiss : ShaderSt :=
  { initShader false with
      modules := [⟨strBytes "srcA", .strSrc, strBytes "m1"⟩],
      useCache := true, hashFile := "shader.cache",
      hash := ⟨[strBytes "srcA"], 0⟩ }

/-- A recompile continuation that is never reached in a COMPILED save. -/
def rcDummy : ShaderSt → COut := fun s => ⟨s, [], true⟩

end Shader

namespace Pipe

theorem foldl_congr_of_chainSim (step : Nat → Ext → Nat)
    (hstep : ∀ a e e', extSim e e' → step a e = step a e') :
    ∀ {c c' : List Ext}, chainSim c c' → ∀ a, c.foldl step a = c'.foldl step a := by
  intro c c' h
  induction h with
  | nil => intro a; rfl
  | cons he _ ih => intro a; simp only [List.foldl_cons, hstep _ _ _ he, ih]

theorem vertexInputExt_congr (a : Nat) (e e' : Ext) (h : extSim e e') :
    vertexInputExt a e = vertexInputExt a e' := by
  rcases h with rfl | ⟨t, p, p', rfl, rfl⟩ <;> rfl

theorem tessExt_congr (a : Nat) (e e' : Ext) (h : extSim e e') :
    tessExt a e = tessExt a e' := by
  rcases h with rfl | ⟨t, p, p', rfl, rfl⟩ <;> rfl

theorem viewportExt_congr (hflt : Nat → Nat) (a : Nat) (e e' : Ext) (h : extSim e e') :
    viewportExt hflt a e = viewportExt hflt a e' := by
  rcases h with rfl | ⟨t, p, p', rfl, rfl⟩ <;> rfl

theorem rastExt_congr (hflt : Nat → Nat) (a : Nat) (e e' : Ext) (h : extSim e e') :
    rastExt hflt a e = rastExt hflt a e' := by
  rcases h with rfl | ⟨t, p, p', rfl, rfl⟩ <;> rfl

theorem msExt_congr (hflt : Nat → Nat) (a : Nat) (e e' : Ext) (h : extSim e e') :
    msExt hflt a e = msExt hflt a e' := by
  rcases h with rfl | ⟨t, p, p', rfl, rfl⟩ <;> rfl

theorem cbExt_congr (a : Nat) (e e' : Ext) (h : extSim e e') :
    cbExt a e = cbExt a e' := by
  rcases h with rfl | ⟨t, p, p', rfl, rfl⟩ <;> rfl

/-- C1: the pipeline-state fingerprint is NOT a function of the stored values
alone — with every scalar field, array and chain identical (the same
API-reachable builder state and the same seed), two different values of the
uninitialized sub-hash accumulators produce two different `getHash` results.
This evaluates the code at the failing input of the C1 code bug: every
per-block sub-hash declares `size_t l_Hash;` without an initializer and then
reads it through `hashCombine`. -/
theorem C1_fingerprint_reads_uninitialized_accumulator :
    getHash id (fun _ => 0) (fun _ => 0) garbZero builderApi 0 ≠
      getHash id (fun _ => 0) (fun _ => 0) garbOne builderApi 0 := by
  decide

/-- C2 counterexample: two builder states that differ only in the second
record of the vertex-input extension chain — both records carrying the
recognized vertex-input-divisor tag with different divisor data — have equal
fingerprints, because `getVertexInputHash` inspects only the first pNext
record instead of walking the chain. -/
theorem C2_second_recognized_record_ignored :
    cexChainA.getD 1 (.unknown 0 0) = .divisor [(0, 2)] ∧
    cexChainB.getD 1 (.unknown 0 0) = .divisor [(0, 3)] ∧
    ({ builderApi with vertexChain := cexChainA } : Builder) ≠
      { builderApi with vertexChain := cexChainB } ∧
    getHash id (fun _ => 0) (fun _ => 0) garbZero
        { builderApi with vertexChain := cexChainA } 0 =
      getHash id (fun _ => 0) (fun _ => 0) garbZero
        { builderApi with vertexChain := cexChainB } 0 := by
  decide

/-- C2 amended: the viewport, rasterization, multisample and color-blend
sub-hashes walk the entire extension chain, and in every block an
unrecognized record contributes nothing — replacing any chain by one that
differs only in unrecognized records' payloads (`chainSim`) leaves the whole
fingerprint unchanged; but the vertex-input and tessellation sub-hashes
inspect only the FIRST chain record, so records past the first never
contribute (last two equations), while the viewport walk demonstrably reads
past the first record (final inequality). -/
theorem C2_chain_walk_per_block :
    (∀ (hflt : Nat → Nat) (hstr : String → Nat) (so : Nat → Nat) (g : Garb)
      (st : Builder) (seed : Nat) (c c' : List Ext), chainSim c c' →
      getHash hflt hstr so g { st with vpChain := c } seed
        = getHash hflt hstr so g { st with vpChain := c' } seed) ∧
    (∀ (hflt : Nat → Nat) (hstr : String → Nat) (so : Nat → Nat) (g : Garb)
      (st : Builder) (seed : Nat) (c c' : List Ext), chainSim c c' →
      getHash hflt hstr so g { st with rsChain := c } seed
        = getHash hflt hstr so g { st with rsChain := c' } seed) ∧
    (∀ (hflt : Nat → Nat) (hstr : String → Nat) (so : Nat → Nat) (g : Garb)
      (st : Builder) (seed : Nat) (c c' : List Ext), chainSim c c' →
      getHash hflt hstr so g { st with msChain := c } seed
        = getHash hflt hstr so g { st with msChain := c' } seed) ∧
    (∀ (hflt : Nat → Nat) (hstr : String → Nat) (so : Nat → Nat) (g : Garb)
      (st : Builder) (seed : Nat) (c c' : List Ext), chainSim c c' →
      getHash hflt hstr so g { st with cbChain := c } seed
        = getHash hflt hstr so g { st with cbChain := c' } seed) ∧
    (∀ (hflt : Nat → Nat) (hstr : String → Nat) (so : Nat → Nat) (g : Garb)
      (st : Builder) (seed : Nat) (c c' : List Ext), chainSim c c' →
      getHash hflt hstr so g { st with vertexChain := c } seed
        = getHash hflt hstr so g { st with vertexChain := c' } seed) ∧
    (∀ (hflt : Nat → Nat) (hstr : String → Nat) (so : Nat → Nat) (g : Garb)
      (st : Builder) (seed : Nat) (c c' : List Ext), chainSim c c' →
      getHash hflt hstr so g { st with tessChain := c } seed
        = getHash hflt hstr so g { st with tessChain := c' } seed) ∧
    (∀ (st : Builder) (e : Ext) (rest rest' : List Ext) (a : Nat),
      getVertexInputHash { st with vertexChain := e :: rest } a
        = getVertexInputHash { st with vertexChain := e :: rest' } a) ∧
    (∀ (st : Builder) (e : Ext) (rest rest' : List Ext) (a : Nat),
      getTessellationHash { st with tessChain := e :: rest } a
        = getTessellationHash { st with tessChain := e :: rest' } a) ∧
    getViewportStateHash id
        { builderApi with vpChain := [.unknown 99 0, .depthClipControl 0] } 0
      ≠ getViewportStateHash id
        { builderApi with vpChain := [.unknown 99 0, .depthClipControl 1] } 0 := by
  refine ⟨?_, ?_, ?_, ?_, ?_, ?_, ?_, ?_, ?_⟩
  · intro hflt hstr so g st seed c c' h
    simp only [getHash, getVertexInputHash, getInputAssemblyHash, getTessellationHash,
      getViewportStateHash, getRasterizationHash, getMultisampleHash, getDepthStencilHash,
      getColorBlendHash, getDynamicStateHash]
    rw [foldl_congr_of_chainSim (viewportExt hflt)
      (fun a e e' he => viewportExt_congr hflt a e e' he) h]
  · intro hflt hstr so g st seed c c' h
    simp only [getHash, getVertexInputHash, getInputAssemblyHash, getTessellationHash,
      getViewportStateHash, getRasterizationHash, getMultisampleHash, getDepthStencilHash,
      getColorBlendHash, getDynamicStateHash]
    rw [foldl_congr_of_chainSim (rastExt hflt)
      (fun a e e' he => rastExt_congr hflt a e e' he) h]
  · intro hflt hstr so g st seed c c' h
    simp only [getHash, getVertexInputHash, getInputAssemblyHash, getTessellationHash,
      getViewportStateHash, getRasterizationHash, getMultisampleHash, getDepthStencilHash,
      getColorBlendHash, getDynamicStateHash]
    rw [foldl_congr_of_chainSim (msExt hflt)
      (fun a e e' he => msExt_congr hflt a e e' he) h]
  · intro hflt hstr so g st seed c c' h
    simp only [getHash, getVertexInputHash, getInputAssemblyHash, getTessellationHash,
      getViewportStateHash, getRasterizationHash, getMultisampleHash, getDepthStencilHash,
      getColorBlendHash, getDynamicStateHash]
    rw [foldl_congr_of_chainSim cbExt (fun a e e' he => cbExt_congr a e e' he) h]
  · intro hflt hstr so g st seed c c' h
    cases h with
    | nil => rfl
    | cons he ht =>
        simp only [getHash, getVertexInputHash, getInputAssemblyHash, getTessellationHash,
          getViewportStateHash, getRasterizationHash, getMultisampleHash,
          getDepthStencilHash, getColorBlendHash, getDynamicStateHash]
        rw [vertexInputExt_congr g.vi _ _ he]
  · intro hflt hstr so g st seed c c' h
    cases h with
    | nil => rfl
    | cons he ht =>
        simp only [getHash, getVertexInputHash, getInputAssemblyHash, getTessellationHash,
          getViewportStateHash, getRasterizationHash, getMultisampleHash,
          getDepthStencilHash, getColorBlendHash, getDynamicStateHash]
        rw [tessExt_congr g.te _ _ he]
  · intro st e rest rest' a
    rfl
  · intro st e rest rest' a
    rfl
  · decide

/-- Witness for C2: a viewport chain whose single unrecognized record changes
payload from 0 to 7 satisfies `chainSim`, and the fingerprint is unchanged. -/
theorem C2_chain_walk_per_block_witness :
    chainSim [Ext.unknown 5 0] [Ext.unknown 5 7] ∧
    getHash id (fun _ => 0) (fun _ => 0) garbZero
        { builderApi with vpChain := [Ext.unknown 5 0] } 0
      = getHash id (fun _ => 0) (fun _ => 0) garbZero
        { builderApi with vpChain := [Ext.unknown 5 7] } 0 :=
  ⟨List.Forall₂.cons (Or.inr ⟨5, 0, 7, rfl, rfl⟩) List.Forall₂.nil,
    C2_chain_walk_per_block.1 id (fun _ => 0) (fun _ => 0) garbZero builderApi 0
      [Ext.unknown 5 0] [Ext.unknown 5 7]
      (List.Forall₂.cons (Or.inr ⟨5, 0, 7, rfl, rfl⟩) List.Forall₂.nil)⟩

end Pipe

namespace Shader

/-- C9: the `"name=value"` macro encoding aliases distinct pairs — ("a",
"b=c") and ("a=b", "c") are different pairs whose encodings coincide, so
`addMacro` pushes identical blobs and the two resulting `ShaderHash` states
yield the same combined hash under every string-hash function. -/
theorem C9_kv_encoding_not_injective :
    ((strBytes "a", strBytes "b=c") ≠ (strBytes "a=b", strBytes "c")) ∧
    kvBytes (strBytes "a") (strBytes "b=c") = kvBytes (strBytes "a=b") (strBytes "c") ∧
    ∀ (hB : Bytes → Nat) (st : HashSt),
      getHashS hB (hashAddKV st (strBytes "a") (strBytes "b=c"))
        = getHashS hB (hashAddKV st (strBytes "a=b") (strBytes "c")) := by
  refine ⟨by decide, by decide, ?_⟩
  intro hB st
  have h : kvBytes (strBytes "a") (strBytes "b=c")
      = kvBytes (strBytes "a=b") (strBytes "c") := by decide
  unfold hashAddKV
  rw [h]

/-- C3: the first-failure-wins discipline does not hold. With two inline
string modules whose loads both fail, the second module is still handed to
the backend loader after the first failure (the `loadModuleString` path has
no FAILED guard) and its error message overwrites the first; and with a
single good module whose link fails, `linkAndFinalize` records the link error
but then unconditionally overwrites the FAILED status with COMPILED. This
theorem evaluates `compile` at both failing inputs. -/
theorem C3_first_failure_not_preserved :
    (compileF envLoadFail 2 stTwoMods false).st.loadedLog
        = [strBytes "m1", strBytes "m2"] ∧
    (compileF envLoadFail 2 stTwoMods false).st.result.error
        = errLoadModule (strBytes "m2") ∧
    errLoadModule (strBytes "m2") ≠ errLoadModule (strBytes "m1") ∧
    (compileF envLinkFail 2 stOneMod false).st.result.status = .compiled ∧
    (compileF envLinkFail 2 stOneMod false).st.result.error = errLink := by
  decide

/-- C7: the cache key computed at load time (`compile`, lines 179-181) and
the content hash written into the header at save time (`saveCodeCache`,
lines 358-361) are the same function of the content hash, the optimization
flag and the target profile; and across the memoizing `getHash`, the value
save reads (after compile already forced the memo) equals the value compile
used, so for a fixed module/macro/option state the lookup key equals the
stored hash. -/
theorem C7_lookup_key_eq_saved_hash :
    (∀ (hB : Bytes → Nat) (h0 : Nat) (opt : Bool),
      compileLookupKey hB h0 opt = saveContentHash hB h0 opt) ∧
    (∀ (hB : Bytes → Nat) (h : HashSt) (opt : Bool),
      saveContentHash hB (getHashS hB (getHashS hB h).2).1 opt
        = compileLookupKey hB (getHashS hB h).1 opt) := by
  refine ⟨fun _ _ _ => rfl, ?_⟩
  intro hB h opt
  unfold saveContentHash compileLookupKey getHashS
  by_cases hm : h.memo = 0
  · simp only [hm, if_true, reduceIte]
    by_cases hv : hashValue hB h.data = 0 <;> simp [hv]
  · simp [hm]

theorem apiStep_keyR (env : Env) {s t : ShaderSt} (h : keyR s t) (op : ApiOp) :
    keyR (apiStep env s op) (apiStep env t op) := by
  obtain ⟨h1, h2, h3⟩ := h
  cases op with
  | enable p => exact ⟨rfl, by simp [apiStep, h2], by simp [apiStep, h3]⟩
  | addMod f n =>
      simp only [apiStep, keyR]
      rw [h1, h2]
      cases t.useCache <;> simp [h1, h2, h3]
  | addModStr src n =>
      simp only [apiStep, keyR]
      rw [h1, h2]
      cases t.useCache <;> simp [h1, h2, h3]
  | addDep f =>
      simp only [apiStep, keyR]
      rw [h1, h2]
      cases t.useCache <;> simp [h1, h2, h3]

theorem runApi_keyR (env : Env) (post : List ApiOp) :
    ∀ {s t : ShaderSt}, keyR s t → keyR (runApi env s post) (runApi env t post) := by
  induction post with
  | nil => intro s t h; exact h
  | cons op rest ih => intro s t h; exact ih (apiStep_keyR env h op)

/-- C10: a module added (by filename or by inline source) BEFORE
`enableCache` contributes nothing to the content hash: replacing that
module's source/filename and name by anything else leaves the cache-lookup
key of every later state unchanged, for every environment and every suffix
of further configuration calls. -/
theorem C10_module_before_enableCache_not_in_key :
    ∀ (env : Env) (opt : Bool) (pre post : List ApiOp),
      (runApi env (initShader opt) pre).useCache = false →
      (∀ (src src' n n' : Bytes),
        stateKey env (runApi env (initShader opt) (pre ++ ApiOp.addModStr src n :: post))
          = stateKey env
            (runApi env (initShader opt) (pre ++ ApiOp.addModStr src' n' :: post))) ∧
      (∀ (f f' n n' : Bytes),
        stateKey env (runApi env (initShader opt) (pre ++ ApiOp.addMod f n :: post))
          = stateKey env
            (runApi env (initShader opt) (pre ++ ApiOp.addMod f' n' :: post))) := by
  intro env opt pre post hc
  have hsplit : ∀ (op : ApiOp),
      runApi env (initShader opt) (pre ++ op :: post)
        = runApi env (apiStep env (runApi env (initShader opt) pre) op) post := by
    intro op
    simp [runApi, List.foldl_append]
  constructor
  · intro src src' n n'
    rw [hsplit, hsplit]
    have hR : keyR (apiStep env (runApi env (initShader opt) pre) (ApiOp.addModStr src n))
        (apiStep env (runApi env (initShader opt) pre) (ApiOp.addModStr src' n')) := by
      refine ⟨by simp [apiStep, hc], by simp [apiStep, hc], by simp [apiStep, hc]⟩
    obtain ⟨u1, u2, u3⟩ := runApi_keyR env post hR
    simp [stateKey, u2, u3]
  · intro f f' n n'
    rw [hsplit, hsplit]
    have hR : keyR (apiStep env (runApi env (initShader opt) pre) (ApiOp.addMod f n))
        (apiStep env (runApi env (initShader opt) pre) (ApiOp.addMod f' n')) := by
      refine ⟨by simp [apiStep, hc], by simp [apiStep, hc], by simp [apiStep, hc]⟩
    obtain ⟨u1, u2, u3⟩ := runApi_keyR env post hR
    simp [stateKey, u2, u3]

/-- Witness for C10: adding module source "A" versus "B" before `enableCache`
gives the same lookup key even after the cache is enabled later. -/
theorem C10_module_before_enableCache_not_in_key_witness :
    (runApi envW (initShader false) []).useCache = false ∧
    stateKey envW (runApi envW (initShader false)
        ([] ++ ApiOp.addModStr (strBytes "A") (strBytes "m") :: [ApiOp.enable "c"]))
      = stateKey envW (runApi envW (initShader false)
        ([] ++ ApiOp.addModStr (strBytes "B") (strBytes "m") :: [ApiOp.enable "c"])) :=
  ⟨rfl,
    (C10_module_before_enableCache_not_in_key envW false [] [ApiOp.enable "c"] rfl).1
      (strBytes "A") (strBytes "B") (strBytes "m") (strBytes "m")⟩

end Shader

namespace Shader

theorem leBytes_length (k n : Nat) : (leBytes k n).length = k := by
  induction k generalizing n with
  | zero => rfl
  | succ k ih => simp [leBytes, ih]

theorem leVal_leBytes (k n : Nat) : leVal (leBytes k n) = n % 256 ^ k := by
  induction k generalizing n with
  | zero => simp [leBytes, leVal, Nat.mod_one]
  | succ k ih =>
      simp only [leBytes, leVal, List.foldr_cons]
      have : leVal (leBytes k (n / 256)) = n / 256 % 256 ^ k := ih (n / 256)
      simp only [leVal] at this
      rw [this, pow_succ', Nat.mod_mul]

theorem fixedField_length (k : Nat) (hk : 1 ≤ k) (b : Bytes) :
    (fixedField k b).length = k := by
  simp only [fixedField, List.length_append, List.length_take, List.length_replicate]
  have := Nat.min_le_left (k - 1) b.length
  omega

theorem encodeHeaderS_length (h : HeaderS) : (encodeHeaderS h).length = 64 := by
  simp [encodeHeaderS, leBytes_length, fixedField_length]

theorem readInto_suffix (data : Bytes) (pos k : Nat) (B rest dst : Bytes)
    (hd : data.drop pos = B ++ rest) (hB : B.length = k) (hl : dst.length = k) :
    readInto ⟨data, pos, false⟩ dst = (⟨data, pos + k, false⟩, B) ∧
    data.drop (pos + k) = rest := by
  have hlen : data.length - pos = B.length + rest.length := by
    have h1 := congrArg List.length hd
    simpa [List.length_drop] using h1
  have hsuf : data.drop (pos + k) = rest := by
    have h2 : data.drop (pos + k) = (data.drop pos).drop k := by
      rw [List.drop_drop, Nat.add_comm]
    rw [h2, hd, ← hB, List.drop_left]
  refine ⟨?_, hsuf⟩
  unfold readInto
  simp only [Bool.false_eq_true, if_false]
  have hle : dst.length ≤ data.length - pos := by omega
  rw [if_pos hle, hd, hl, ← hB]
  simp [List.take_left]

end Shader
namespace Shader

theorem spirvBytes_length (ws : List Nat) :
    ((ws.map (leBytes 4)).flatten).length = 4 * ws.length := by
  induction ws with
  | nil => rfl
  | cons w rest ih =>
      simp [List.flatten_cons, leBytes_length, ih]
      omega

theorem toWords_flatten (ws : List Nat) (h : ∀ w ∈ ws, w < 2 ^ 32) :
    toWords ((ws.map (leBytes 4)).flatten) = ws := by
  induction ws with
  | nil => rfl
  | cons w rest ih =>
      have hw : w < 2 ^ 32 := h w (by simp)
      have hrest : ∀ x ∈ rest, x < 2 ^ 32 := fun x hx => h x (by simp [hx])
      show toWords (leBytes 4 w ++ (rest.map (leBytes 4)).flatten) = w :: rest
      have hshape : leBytes 4 w = [w % 256, w / 256 % 256, w / 256 / 256 % 256,
          w / 256 / 256 / 256 % 256] := by
        simp [leBytes]
      rw [hshape]
      show leVal [w % 256, w / 256 % 256, w / 256 / 256 % 256, w / 256 / 256 / 256 % 256]
          :: toWords ((rest.map (leBytes 4)).flatten) = w :: rest
      rw [ih hrest]
      have : leVal [w % 256, w / 256 % 256, w / 256 / 256 % 256, w / 256 / 256 / 256 % 256]
          = w % 256 ^ 4 := by
        have := leVal_leBytes 4 w
        rw [hshape] at this
        exact this
      rw [this]
      have h4 : (256 : Nat) ^ 4 = 2 ^ 32 := by norm_num
      rw [h4, Nat.mod_eq_of_lt hw]

theorem encodeRecord_length (r : CachedCode) :
    (encodeRecord r).length = 4 + 4 + r.name.length + 4 + 4 * r.spirv.length := by
  simp only [encodeRecord, recordChunks, List.flatten_cons, List.flatten_nil,
    List.append_nil, List.length_append, leBytes_length, spirvBytes_length]
  omega

end Shader
namespace Shader

theorem readRec_encoded (data : Bytes) (pos : Nat) (r : CachedCode) (rest : Bytes)
    (hb : recBounded r)
    (hd : data.drop pos = encodeRecord r ++ rest) :
    readRec ⟨data, pos, false⟩
      = (⟨data, pos + 4 + 4 + r.name.length + 4 + r.spirv.length * 4, false⟩, r) ∧
    data.drop (pos + 4 + 4 + r.name.length + 4 + r.spirv.length * 4) = rest := by
  obtain ⟨hbs, hbn, hbc, hbw⟩ := hb
  have h232 : (256 : Nat) ^ 4 = 2 ^ 32 := by norm_num
  have hd1 : data.drop pos = leBytes 4 r.stage ++ (leBytes 4 r.name.length ++ (r.name ++
      (leBytes 4 (r.spirv.length * 4) ++ ((r.spirv.map (leBytes 4)).flatten ++ rest)))) := by
    simpa [encodeRecord, recordChunks, List.append_assoc] using hd
  obtain ⟨e1, hd2⟩ := readInto_suffix data pos 4 (leBytes 4 r.stage) _
    (List.replicate 4 0) hd1 (leBytes_length 4 _) (by simp)
  obtain ⟨e2, hd3⟩ := readInto_suffix data (pos + 4) 4 (leBytes 4 r.name.length) _
    (List.replicate 4 0) hd2 (leBytes_length 4 _) (by simp)
  have hnl : leVal (leBytes 4 r.name.length) = r.name.length := by
    rw [leVal_leBytes, h232, Nat.mod_eq_of_lt hbn]
  obtain ⟨e3, hd4⟩ := readInto_suffix data (pos + 4 + 4) r.name.length r.name _
    (List.replicate r.name.length 0) hd3 rfl (by simp)
  obtain ⟨e4, hd5⟩ := readInto_suffix data (pos + 4 + 4 + r.name.length) 4
    (leBytes 4 (r.spirv.length * 4)) _ (List.replicate 4 0) hd4 (leBytes_length 4 _) (by simp)
  have hcs : leVal (leBytes 4 (r.spirv.length * 4)) = r.spirv.length * 4 := by
    rw [leVal_leBytes, h232, Nat.mod_eq_of_lt hbc]
  obtain ⟨e5, hd6⟩ := readInto_suffix data (pos + 4 + 4 + r.name.length + 4)
    (r.spirv.length * 4) ((r.spirv.map (leBytes 4)).flatten) rest
    (List.replicate (r.spirv.length * 4) 0) hd5
    (by rw [spirvBytes_length]; omega) (by simp)
  have hstage : leVal (leBytes 4 r.stage) = r.stage := by
    rw [leVal_leBytes, h232, Nat.mod_eq_of_lt hbs]
  have hdiv : r.spirv.length * 4 / 4 * 4 = r.spirv.length * 4 := by omega
  have htake : ((r.spirv.map (leBytes 4)).flatten).take (r.spirv.length * 4)
      = (r.spirv.map (leBytes 4)).flatten := by
    apply List.take_of_length_le
    rw [spirvBytes_length]
    omega
  refine ⟨?_, hd6⟩
  simp only [readRec, e1, e2, hnl, e3, e4, hcs, e5, hstage, hdiv, htake,
    toWords_flatten r.spirv hbw]

end Shader
namespace Shader

theorem readRecs_encoded :
    ∀ (recs : List CachedCode) (data : Bytes) (pos : Nat) (rest : Bytes)
      (acc : List CachedCode),
      (∀ r ∈ recs, recBounded r) →
      data.drop pos = (recs.map encodeRecord).flatten ++ rest →
      (readRecs recs.length ⟨data, pos, false⟩ acc).2 = acc ++ recs := by
  intro recs
  induction recs with
  | nil => intro data pos rest acc _ _; simp [readRecs]
  | cons r rs ih =>
      intro data pos rest acc hb hd
      have hd1 : data.drop pos = encodeRecord r ++ ((rs.map encodeRecord).flatten ++ rest) := by
        simpa [List.append_assoc] using hd
      obtain ⟨e, hd2⟩ := readRec_encoded data pos r _ (hb r (by simp)) hd1
      have hrs : ∀ x ∈ rs, recBounded x := fun x hx => hb x (by simp [hx])
      show (readRecs (rs.length + 1) ⟨data, pos, false⟩ acc).2 = acc ++ r :: rs
      simp only [readRecs, e]
      rw [ih data _ rest (acc ++ [r]) hrs hd2]
      simp

theorem take_append_len (A B : Bytes) (k : Nat) (h : A.length = k) : (A ++ B).take k = A := by
  rw [← h]
  exact List.take_left A B

theorem drop_append_len (A B : Bytes) (k : Nat) (h : A.length = k) : (A ++ B).drop k = B := by
  rw [← h]
  exact List.drop_left A B

theorem header_slices (h : HeaderS) :
    (encodeHeaderS h).take 4 = leBytes 4 h.magic ∧
    ((encodeHeaderS h).drop 4).take 4 = leBytes 4 h.version ∧
    ((encodeHeaderS h).drop 40).take 16 = fixedField 16 h.profile ∧
    ((encodeHeaderS h).drop 56).take 8 = leBytes 8 h.contentHash := by
  have hsh : encodeHeaderS h = leBytes 4 h.magic ++ (leBytes 4 h.version ++
      (fixedField 32 h.slangVer ++ (fixedField 16 h.profile ++ leBytes 8 h.contentHash))) := by
    simp [encodeHeaderS, List.append_assoc]
  have d4 : (encodeHeaderS h).drop 4 = leBytes 4 h.version ++
      (fixedField 32 h.slangVer ++ (fixedField 16 h.profile ++ leBytes 8 h.contentHash)) := by
    rw [hsh]; exact drop_append_len _ _ 4 (leBytes_length 4 _)
  have d8 : (encodeHeaderS h).drop 8 = fixedField 32 h.slangVer ++
      (fixedField 16 h.profile ++ leBytes 8 h.contentHash) := by
    have : (encodeHeaderS h).drop 8 = ((encodeHeaderS h).drop 4).drop 4 := by
      rw [List.drop_drop]
    rw [this, d4]; exact drop_append_len _ _ 4 (leBytes_length 4 _)
  have d40 : (encodeHeaderS h).drop 40 = fixedField 16 h.profile ++ leBytes 8 h.contentHash := by
    have : (encodeHeaderS h).drop 40 = ((encodeHeaderS h).drop 8).drop 32 := by
      rw [List.drop_drop]
    rw [this, d8]; exact drop_append_len _ _ 32 (fixedField_length 32 (by omega) _)
  have d56 : (encodeHeaderS h).drop 56 = leBytes 8 h.contentHash := by
    have : (encodeHeaderS h).drop 56 = ((encodeHeaderS h).drop 40).drop 16 := by
      rw [List.drop_drop]
    rw [this, d40]; exact drop_append_len _ _ 16 (fixedField_length 16 (by omega) _)
  refine ⟨?_, ?_, ?_, ?_⟩
  · rw [hsh]; exact take_append_len _ _ 4 (leBytes_length 4 _)
  · rw [d4]; exact take_append_len _ _ 4 (leBytes_length 4 _)
  · rw [d40]; exact take_append_len _ _ 16 (fixedField_length 16 (by omega) _)
  · rw [d56]; exact List.take_of_length_le (by rw [leBytes_length])

end Shader
namespace Shader

theorem tryLoad_encodeFile (sv : Bytes) (key : Nat) (recs : List CachedCode)
    (es : Nat) (eps : List Bytes) (c0 : List CachedCode)
    (hk : key < 2 ^ 64) (hn : recs.length < 2 ^ 32) (hb : ∀ r ∈ recs, recBounded r) :
    tryLoadCachedCode (some (encodeFile sv key recs)) key es eps c0 =
      (if es ≠ 0 ∧ stageCheckOk es (c0 ++ recs) = false then (false, c0 ++ recs)
       else if eps ≠ [] ∧ epCheckOk eps (c0 ++ recs) = false then (false, c0 ++ recs)
       else (true, c0 ++ recs)) := by
  have hdr : HeaderS := ⟨CACHE_MAGIC, CACHE_VERSION, sv, profileBytes, key⟩
  have hd0 : (encodeFile sv key recs).drop 0
      = encodeHeaderS ⟨CACHE_MAGIC, CACHE_VERSION, sv, profileBytes, key⟩ ++
        (leBytes 4 recs.length ++ (recs.map encodeRecord).flatten) := by
    simp [encodeFile, List.append_assoc]
  obtain ⟨e0, hd1⟩ := readInto_suffix (encodeFile sv key recs) 0 64
    (encodeHeaderS ⟨CACHE_MAGIC, CACHE_VERSION, sv, profileBytes, key⟩) _
    defaultHeaderBytes hd0 (encodeHeaderS_length _) (by decide)
  rw [Nat.zero_add] at e0 hd1
  obtain ⟨hs1, hs2, hs3, hs4⟩ := header_slices ⟨CACHE_MAGIC, CACHE_VERSION, sv, profileBytes, key⟩
  have hm : leVal ((encodeHeaderS ⟨CACHE_MAGIC, CACHE_VERSION, sv, profileBytes, key⟩).take 4)
      = CACHE_MAGIC := by
    rw [hs1, leVal_leBytes]
    show CACHE_MAGIC % 256 ^ 4 = CACHE_MAGIC
    decide
  have hv : leVal (((encodeHeaderS ⟨CACHE_MAGIC, CACHE_VERSION, sv, profileBytes, key⟩).drop 4).take 4)
      = CACHE_VERSION := by
    rw [hs2, leVal_leBytes]
    show CACHE_VERSION % 256 ^ 4 = CACHE_VERSION
    decide
  have hp : cString (((encodeHeaderS ⟨CACHE_MAGIC, CACHE_VERSION, sv, profileBytes, key⟩).drop 40).take 16)
      = profileBytes := by
    rw [hs3]
    show cString (fixedField 16 profileBytes) = profileBytes
    decide
  have hh : leVal (((encodeHeaderS ⟨CACHE_MAGIC, CACHE_VERSION, sv, profileBytes, key⟩).drop 56).take 8)
      = key := by
    rw [hs4, leVal_leBytes]
    show key % 256 ^ 8 = key
    have h8 : (256 : Nat) ^ 8 = 2 ^ 64 := by norm_num
    rw [h8, Nat.mod_eq_of_lt hk]
  obtain ⟨e6, hd7⟩ := readInto_suffix (encodeFile sv key recs) 64 4
    (leBytes 4 recs.length) _ (List.replicate 4 0) hd1 (leBytes_length 4 _) (by simp)
  have hcnt : leVal (leBytes 4 recs.length) = recs.length := by
    rw [leVal_leBytes]
    have : (256 : Nat) ^ 4 = 2 ^ 32 := by norm_num
    rw [this, Nat.mod_eq_of_lt hn]
  have hrecs : (readRecs recs.length ⟨encodeFile sv key recs, 64 + 4, false⟩ []).2
      = [] ++ recs := by
    apply readRecs_encoded recs _ _ [] [] hb
    simpa using hd7
  simp only [tryLoadCachedCode, e0, hm, hv, hp, hh, e6, hcnt, hrecs, List.nil_append,
    ne_eq, not_true_eq_false, if_false, reduceIte]
end Shader
namespace Shader

/-- C4 counterexample: a 68-byte cache file whose header passes every check
and which declares one record but ends before any of the record's bytes (the
declared fields would need at least 12 more bytes) is loaded SUCCESSFULLY,
producing one all-zero record — the short reads are never detected, so a
short read is not a hard failure of the load. -/
theorem C4_truncated_file_loads_successfully :
    truncatedFile.length = 68 ∧
    tryLoadCachedCode (some truncatedFile) 12345 0 [] [] = (true, [⟨0, [], []⟩]) := by
  decide

/-- C4 amended: after a header that passes all checks, every record field is
read by requesting exactly its declared size (record count, per-record stage,
name length, name bytes, code length, code bytes), so a complete well-formed
file is parsed back into exactly the records that were encoded; but a short
read is NOT detected — the stream's fail state is never consulted, the
missing bytes read back as the zero-initialized destination buffers, and the
load can still report success on truncated data. -/
theorem C4_exact_size_reads_roundtrip :
    ∀ (sv : Bytes) (key : Nat) (recs : List CachedCode),
      key < 2 ^ 64 → recs.length < 2 ^ 32 → (∀ r ∈ recs, recBounded r) →
      tryLoadCachedCode (some (encodeFile sv key recs)) key 0 [] [] = (true, recs) := by
  intro sv key recs hk hn hb
  rw [tryLoad_encodeFile sv key recs 0 [] [] hk hn hb]
  simp

/-- Witness for C4: a one-record file round-trips. -/
theorem C4_exact_size_reads_roundtrip_witness :
    tryLoadCachedCode
        (some (encodeFile (strBytes "slang-tag") 42 [⟨1, strBytes "main", [7, 8, 9]⟩]))
        42 0 [] [] = (true, [⟨1, strBytes "main", [7, 8, 9]⟩]) :=
  C4_exact_size_reads_roundtrip (strBytes "slang-tag") 42 [⟨1, strBytes "main", [7, 8, 9]⟩]
    (by decide) (by decide)
    (fun r hr => by
      rcases List.mem_singleton.mp hr with rfl
      exact ⟨by decide, by decide, by decide, by decide⟩)

end Shader
namespace Shader

/-- C6: every cache-load rejection is a soft miss. File absence, a magic
mismatch, a version mismatch, a profile mismatch, a content-hash mismatch,
and (when declared) a missing expected stage or entry-point name all make
`tryLoadCachedCode` answer false; the load never touches the shader's
`Result` (it is not even an input of the function), and on a miss `compile`
proceeds with the live-compilation tail on a state whose `result` field is
unchanged. -/
theorem C6_rejected_cache_is_soft_miss :
    (∀ (key es : Nat) (eps : List Bytes) (c0 : List CachedCode),
      tryLoadCachedCode none key es eps c0 = (false, c0)) ∧
    (∀ (h : HeaderS) (body : Bytes) (key es : Nat) (eps : List Bytes) (c0 : List CachedCode),
      h.magic < 2 ^ 32 → h.magic ≠ CACHE_MAGIC →
      tryLoadCachedCode (some (encodeHeaderS h ++ body)) key es eps c0 = (false, c0)) ∧
    (∀ (h : HeaderS) (body : Bytes) (key es : Nat) (eps : List Bytes) (c0 : List CachedCode),
      h.magic = CACHE_MAGIC → h.version < 2 ^ 32 → h.version ≠ CACHE_VERSION →
      tryLoadCachedCode (some (encodeHeaderS h ++ body)) key es eps c0 = (false, c0)) ∧
    (∀ (h : HeaderS) (body : Bytes) (key es : Nat) (eps : List Bytes) (c0 : List CachedCode),
      h.magic = CACHE_MAGIC → h.version = CACHE_VERSION →
      cString (fixedField 16 h.profile) ≠ profileBytes →
      tryLoadCachedCode (some (encodeHeaderS h ++ body)) key es eps c0 = (false, c0)) ∧
    (∀ (h : HeaderS) (body : Bytes) (key es : Nat) (eps : List Bytes) (c0 : List CachedCode),
      h.magic = CACHE_MAGIC → h.version = CACHE_VERSION →
      cString (fixedField 16 h.profile) = profileBytes →
      h.contentHash < 2 ^ 64 → h.contentHash ≠ key →
      tryLoadCachedCode (some (encodeHeaderS h ++ body)) key es eps c0 = (false, c0)) ∧
    (∀ (sv : Bytes) (key : Nat) (recs : List CachedCode) (es : Nat) (eps : List Bytes)
      (c0 : List CachedCode),
      key < 2 ^ 64 → recs.length < 2 ^ 32 → (∀ r ∈ recs, recBounded r) →
      ((es ≠ 0 ∧ stageCheckOk es (c0 ++ recs) = false) ∨
        (eps ≠ [] ∧ epCheckOk eps (c0 ++ recs) = false)) →
      (tryLoadCachedCode (some (encodeFile sv key recs)) key es eps c0).1 = false) ∧
    (∀ (env : Env) (fuel : Nat) (st : ShaderSt) (force : Bool),
      st.useCache = true →
      (tryLoadCachedCode env.cacheFile (stateKey env st) st.expectedStages
        st.expectedEPs st.cachedCodes).1 = false →
      compileF env (fuel + 1) st force
        = liveCompileWith (fun s => compileF env fuel s true) env
            { st with
                hash := (getHashS env.hB st.hash).2,
                cachedCodes := (tryLoadCachedCode env.cacheFile (stateKey env st)
                  st.expectedStages st.expectedEPs st.cachedCodes).2 } ∧
      ({ st with
          hash := (getHashS env.hB st.hash).2,
          cachedCodes := (tryLoadCachedCode env.cacheFile (stateKey env st)
            st.expectedStages st.expectedEPs st.cachedCodes).2 } : ShaderSt).result
        = st.result) := by
  refine ⟨fun _ _ _ _ => rfl, ?_, ?_, ?_, ?_, ?_, ?_⟩
  · intro h body key es eps c0 hlt hne
    have hd0 : (encodeHeaderS h ++ body).drop 0 = encodeHeaderS h ++ body := by simp
    obtain ⟨e0, _⟩ := readInto_suffix (encodeHeaderS h ++ body) 0 64 (encodeHeaderS h) body
      defaultHeaderBytes hd0 (encodeHeaderS_length h) (by decide)
    obtain ⟨hs1, _, _, _⟩ := header_slices h
    have hm : leVal ((encodeHeaderS h).take 4) = h.magic := by
      rw [hs1, leVal_leBytes]
      have : (256 : Nat) ^ 4 = 2 ^ 32 := by norm_num
      rw [this, Nat.mod_eq_of_lt hlt]
    simp only [tryLoadCachedCode, e0, hm]
    rw [if_pos hne]
  · intro h body key es eps c0 hmg hlt hne
    have hd0 : (encodeHeaderS h ++ body).drop 0 = encodeHeaderS h ++ body := by simp
    obtain ⟨e0, _⟩ := readInto_suffix (encodeHeaderS h ++ body) 0 64 (encodeHeaderS h) body
      defaultHeaderBytes hd0 (encodeHeaderS_length h) (by decide)
    obtain ⟨hs1, hs2, _, _⟩ := header_slices h
    have hm : leVal ((encodeHeaderS h).take 4) = CACHE_MAGIC := by
      rw [hs1, hmg, leVal_leBytes]; decide
    have hv : leVal (((encodeHeaderS h).drop 4).take 4) = h.version := by
      rw [hs2, leVal_leBytes]
      have : (256 : Nat) ^ 4 = 2 ^ 32 := by norm_num
      rw [this, Nat.mod_eq_of_lt hlt]
    simp only [tryLoadCachedCode, e0, hm, hv, ne_eq, not_true_eq_false, if_false, reduceIte]
    rw [if_pos hne]
  · intro h body key es eps c0 hmg hvg hne
    have hd0 : (encodeHeaderS h ++ body).drop 0 = encodeHeaderS h ++ body := by simp
    obtain ⟨e0, _⟩ := readInto_suffix (encodeHeaderS h ++ body) 0 64 (encodeHeaderS h) body
      defaultHeaderBytes hd0 (encodeHeaderS_length h) (by decide)
    obtain ⟨hs1, hs2, hs3, _⟩ := header_slices h
    have hm : leVal ((encodeHeaderS h).take 4) = CACHE_MAGIC := by
      rw [hs1, hmg, leVal_leBytes]; decide
    have hv : leVal (((encodeHeaderS h).drop 4).take 4) = CACHE_VERSION := by
      rw [hs2, hvg, leVal_leBytes]; decide
    simp only [tryLoadCachedCode, e0, hm, hv, hs3, ne_eq, not_true_eq_false, if_false,
      reduceIte]
    rw [if_pos hne]
  · intro h body key es eps c0 hmg hvg hpg hlt hne
    have hd0 : (encodeHeaderS h ++ body).drop 0 = encodeHeaderS h ++ body := by simp
    obtain ⟨e0, _⟩ := readInto_suffix (encodeHeaderS h ++ body) 0 64 (encodeHeaderS h) body
      defaultHeaderBytes hd0 (encodeHeaderS_length h) (by decide)
    obtain ⟨hs1, hs2, hs3, hs4⟩ := header_slices h
    have hm : leVal ((encodeHeaderS h).take 4) = CACHE_MAGIC := by
      rw [hs1, hmg, leVal_leBytes]; decide
    have hv : leVal (((encodeHeaderS h).drop 4).take 4) = CACHE_VERSION := by
      rw [hs2, hvg, leVal_leBytes]; decide
    have hh : leVal (((encodeHeaderS h).drop 56).take 8) = h.contentHash := by
      rw [hs4, leVal_leBytes]
      have : (256 : Nat) ^ 8 = 2 ^ 64 := by norm_num
      rw [this, Nat.mod_eq_of_lt hlt]
    simp only [tryLoadCachedCode, e0, hm, hv, hs3, hpg, hh, ne_eq, not_true_eq_false,
      if_false, reduceIte]
    rw [if_pos hne]
  · intro sv key recs es eps c0 hk hn hb hrej
    rw [tryLoad_encodeFile sv key recs es eps c0 hk hn hb]
    rcases hrej with ⟨a, b⟩ | ⟨a, b⟩
    · simp [a, b]
    · by_cases hfirst : es ≠ 0 ∧ stageCheckOk es (c0 ++ recs) = false <;>
        simp [hfirst, a, b]
  · intro env fuel st force huse hmiss
    rcases hgs : getHashS env.hB st.hash with ⟨h0, hs⟩
    have hkey : stateKey env st = compileLookupKey env.hB h0 st.optimize := by
      simp [stateKey, hgs]
    rw [hkey] at hmiss
    refine ⟨?_, rfl⟩
    simp only [compileF, huse, hgs, if_true, reduceIte]
    rcases hlr : tryLoadCachedCode env.cacheFile
        (compileLookupKey env.hB h0 st.optimize) st.expectedStages st.expectedEPs
        st.cachedCodes with ⟨ok, codes⟩
    rw [hlr] at hmiss
    simp only at hmiss
    subst hmiss
    simp [hkey, hlr]

/-- Witness for C6: an absent file is a miss; a magic mismatch on a concrete
header is a miss; and a concrete cache-enabled shader whose file is absent
proceeds to live compilation. -/
theorem C6_rejected_cache_is_soft_miss_witness :
    tryLoadCachedCode none 5 0 [] [] = (false, []) ∧
    tryLoadCachedCode (some (encodeHeaderS ⟨7, 1, [], profileBytes, 0⟩ ++ []))
        5 0 [] [] = (false, []) ∧
    compileF envW 2 stMiss false
      = liveCompileWith (fun s => compileF envW 1 s true) envW
          { stMiss with
              hash := (getHashS envW.hB stMiss.hash).2,
              cachedCodes := (tryLoadCachedCode envW.cacheFile (stateKey envW stMiss)
                stMiss.expectedStages stMiss.expectedEPs stMiss.cachedCodes).2 } :=
  ⟨C6_rejected_cache_is_soft_miss.1 5 0 [] [],
    C6_rejected_cache_is_soft_miss.2.1 ⟨7, 1, [], profileBytes, 0⟩ [] 5 0 [] []
      (by decide) (by decide),
    (C6_rejected_cache_is_soft_miss.2.2.2.2.2.2 envW 1 stMiss false rfl (by decide)).1⟩

end Shader

namespace Shader

/-- C8: `getSpirvForStage` and `getSpirvFromName` fail with the not-ready
error and return no code whenever the status is neither CACHED nor COMPILED
(first conjunct, both functions, status NOT_READY or FAILED); and when the
status is CACHED but the requested stage (resp. name) is not among the cached
entries, they run the forced recompile `compile(true)` and return the binary
code extracted from the recompiled program's layout instead of failing the
request (remaining conjuncts, under the hypotheses that the recompiled
program exists and the backend extraction succeeds). -/
theorem C8_getSpirv_status_gating :
    ∀ (env : Env) (fuel : Nat) (st : ShaderSt) (stage : Nat) (name : Bytes),
      ((st.result.status = .notReady ∨ st.result.status = .failed) →
        getSpirvForStage env fuel st stage
          = ⟨{ st with result := ⟨.failed, errNotFinished⟩ }, [], [], false⟩ ∧
        getSpirvFromName env fuel st name
          = ⟨{ st with result := ⟨.failed, errNotFinished⟩ }, [], [], false⟩) ∧
      (st.result.status = .cached →
        st.cachedCodes.find? (fun c => c.stage == stage) = none →
        ∀ (ss : Nat) (ep : EP),
          getSlangStageFromVkStage stage = some ss →
          (compileF env fuel st true).crash = false →
          (compileF env fuel st true).st.hasProgram = true →
          env.layout.find? (fun e => e.slangStage == ss) = some ep →
          ep.codeOk = true →
          getSpirvForStage env fuel st stage
            = ⟨(compileF env fuel st true).st, ep.code,
                (compileF env fuel st true).ops, false⟩) ∧
      (st.result.status = .cached →
        st.cachedCodes.find? (fun c => c.name == name) = none →
        ∀ (ep : EP),
          (compileF env fuel st true).crash = false →
          (compileF env fuel st true).st.hasProgram = true →
          env.layout[(env.layout.findIdx? (fun e => e.name == name)).getD 0]? = some ep →
          ep.codeOk = true →
          getSpirvFromName env fuel st name
            = ⟨(compileF env fuel st true).st, ep.code,
                (compileF env fuel st true).ops, false⟩) := by
  intro env fuel st stage name
  refine ⟨?_, ?_, ?_⟩
  · intro h
    rcases h with h | h <;>
      exact ⟨by simp [getSpirvForStage, getSpirvWith, h],
        by simp [getSpirvFromName, getSpirvFromNameWith, h]⟩
  · intro hc hf ss ep hss hcr hpr hfind hok
    simp only [getSpirvForStage, getSpirvWith, hc, hf, hss, hcr, hpr, hfind, hok]
    simp [hcr, hpr, hok]
  · intro hc hf ep hcr hpr hidx hok
    simp only [getSpirvFromName, getSpirvFromNameWith, hc, hf, hcr, hpr, hidx, hok]
    simp [hcr, hpr, hok]

/-- Witness for C8: a NOT_READY shader fails with the not-ready error, and a
CACHED shader missing the vertex stage recompiles and returns the extracted
code. -/
theorem C8_witness :
    getSpirvForStage envW 2 (initShader false) 1
      = ⟨{ initShader false with result := ⟨.failed, errNotFinished⟩ }, [], [], false⟩ ∧
    getSpirvForStage envW 2 stCached 1
      = ⟨(compileF envW 2 stCached true).st, epW.code,
          (compileF envW 2 stCached true).ops, false⟩ :=
  ⟨((C8_getSpirv_status_gating envW 2 (initShader false) 1 (strBytes "main")).1
      (Or.inl rfl)).1,
    (C8_getSpirv_status_gating envW 2 stCached 1 (strBytes "main")).2.1 rfl (by decide)
      1 epW (by decide) (by decide) (by decide) (by decide) (by decide)⟩

end Shader

namespace Shader

theorem tmp_ne (s : String) : s ++ ".tmp" ≠ s := by
  intro h
  have hl := congrArg String.length h
  rw [String.length_append] at hl
  have h4 : (".tmp" : String).length = 4 := by decide
  omega

theorem opKeeps_apply (fs : String → Option Bytes) (op : FsOp) (q : String)
    (h : opKeeps q op) : fsApply fs op q = fs q := by
  cases op with
  | mkdirs => rfl
  | fopen p =>
      simp only [opKeeps] at h
      have hq : ¬ q = p := fun e => h e.symm
      simp [fsApply, hq]
  | fwrite p b =>
      simp only [opKeeps] at h
      have hq : ¬ q = p := fun e => h e.symm
      simp [fsApply, hq]
  | fclose p => rfl
  | frename src dst =>
      obtain ⟨h1, h2⟩ := h
      have hq1 : ¬ q = src := fun e => h1 e.symm
      have hq2 : ¬ q = dst := fun e => h2 e.symm
      simp only [fsApply]
      rw [if_neg hq1, if_neg hq2]

theorem fsRun_keeps (q : String) :
    ∀ (ops : List FsOp), (∀ op ∈ ops, opKeeps q op) →
      ∀ (fs : String → Option Bytes), fsRun fs ops q = fs q := by
  intro ops
  induction ops with
  | nil => intro _ fs; rfl
  | cons op rest ih =>
      intro h fs
      show fsRun (fsApply fs op) rest q = fs q
      rw [ih (fun x hx => h x (by simp [hx])), opKeeps_apply fs op q (h op (by simp))]

theorem fsRun_writeOps_self (p : String) :
    ∀ (bs : List Bytes) (fs : String → Option Bytes) (c : Bytes), fs p = some c →
      fsRun fs (writeOps p bs) p = some (c ++ bs.flatten) := by
  intro bs
  induction bs with
  | nil => intro fs c h; simpa [writeOps, fsRun] using h
  | cons b rest ih =>
      intro fs c h
      show fsRun (fsApply fs (FsOp.fwrite p b)) (writeOps p rest) p = _
      have hp : fsApply fs (FsOp.fwrite p b) p = some (c ++ b) := by
        simp [fsApply, h]
      rw [ih _ _ hp]
      simp

theorem writeOps_keeps (p q : String) (hne : p ≠ q) (bs : List Bytes) :
    ∀ op ∈ writeOps p bs, opKeeps q op := by
  intro op hop
  simp only [writeOps, List.mem_map] at hop
  obtain ⟨b, _, rfl⟩ := hop
  exact hne

theorem fsPayload_map (tmp : String) (chunks : List Bytes) :
    (writeOps tmp chunks).map fsPayload = chunks := by
  induction chunks with
  | nil => rfl
  | cons b bs ih =>
      simp only [writeOps, List.map_cons, List.map_map] at ih ⊢
      rw [ih]
      simp [fsPayload]

theorem writesJoin_shape (tmp fin : String) (chunks : List Bytes) :
    writesJoin ((([FsOp.mkdirs, FsOp.fopen tmp] ++ writeOps tmp chunks)
      ++ [FsOp.fclose tmp, FsOp.frename tmp fin])) = chunks.flatten := by
  simp [writesJoin, fsPayload_map, fsPayload]

end Shader
namespace Shader

theorem getSpirvWith_compiled (rc : ShaderSt → COut) (env : Env) (st : ShaderSt)
    (stage : Nat) (h : st.result.status = .compiled) :
    (getSpirvWith rc env st stage).ops = [] ∧
    ((getSpirvWith rc env st stage).st.result.status = .compiled ∨
      (getSpirvWith rc env st stage).st.result.status = .failed) := by
  simp only [getSpirvWith]
  rw [if_neg (by simp [h])]
  cases hf : st.cachedCodes.find? (fun c => c.stage == stage) with
  | some c => exact ⟨rfl, Or.inl h⟩
  | none =>
      rw [if_neg (show ¬st.result.status = Status.cached by simp [h])]
      constructor
      · repeat' split
        all_goals rfl
      · repeat' split
        all_goals first | exact Or.inl h | exact Or.inr rfl

theorem saveLoop_ops (rc : ShaderSt → COut) (env : Env) :
    ∀ (eps : List EP) (st : ShaderSt), st.result.status = .compiled →
      (saveLoop rc env eps st).ops = [] := by
  intro eps
  induction eps with
  | nil => intro st _; rfl
  | cons ep rest ih =>
      intro st h
      simp only [saveLoop]
      split
      · rfl
      · rename_i sg hsg
        obtain ⟨hops, hstat⟩ := getSpirvWith_compiled rc env st sg h
        split
        · exact hops
        · rename_i hcrash
          split
          · exact hops
          · rename_i hfail
            have hcomp : (getSpirvWith rc env st sg).st.result.status = .compiled := by
              rcases hstat with h1 | h1
              · exact h1
              · exact absurd h1 hfail
            have hrec := ih { (getSpirvWith rc env st sg).st with
                cachedCodes := (getSpirvWith rc env st sg).st.cachedCodes ++
                  [⟨sg, ep.name, (getSpirvWith rc env st sg).code⟩] } hcomp
            simp only [hops, hrec, List.nil_append]

theorem fsRun_append_eq (fs : String → Option Bytes) (a b : List FsOp) :
    fsRun fs (a ++ b) = fsRun (fsRun fs a) b := by
  simp [fsRun, List.foldl_append]

theorem save_prefix_atomic (tmp fin : String) (hne : tmp ≠ fin) (chunks : List Bytes)
    (fs0 : String → Option Bytes) (n : Nat) :
    fsRun fs0 ((([FsOp.mkdirs, FsOp.fopen tmp] ++ writeOps tmp chunks)
      ++ [FsOp.fclose tmp, FsOp.frename tmp fin]).take n) fin = fs0 fin ∨
    fsRun fs0 ((([FsOp.mkdirs, FsOp.fopen tmp] ++ writeOps tmp chunks)
      ++ [FsOp.fclose tmp, FsOp.frename tmp fin]).take n) fin
      = some chunks.flatten := by
  have hkeepL : ∀ op ∈ [FsOp.mkdirs, FsOp.fopen tmp] ++ writeOps tmp chunks,
      opKeeps fin op := by
    intro op hop
    rcases List.mem_append.mp hop with h1 | h2
    · simp only [List.mem_cons, List.mem_singleton] at h1
      rcases h1 with rfl | rfl | h1
      · trivial
      · exact hne
      · cases h1
    · exact writeOps_keeps tmp fin hne chunks op h2
  by_cases hn : n ≤ ([FsOp.mkdirs, FsOp.fopen tmp] ++ writeOps tmp chunks).length
  · left
    rw [List.take_append_of_le_length hn]
    exact fsRun_keeps fin _ (fun op hop => hkeepL op (List.take_subset _ _ hop)) fs0
  · push_neg at hn
    rw [List.take_append_eq_append_take,
      List.take_of_length_le (le_of_lt hn)]
    have hfront : fsRun fs0 ([FsOp.mkdirs, FsOp.fopen tmp] ++ writeOps tmp chunks) fin
        = fs0 fin := fsRun_keeps fin _ hkeepL fs0
    have htmp : fsRun fs0 ([FsOp.mkdirs, FsOp.fopen tmp] ++ writeOps tmp chunks) tmp
        = some chunks.flatten := by
      rw [fsRun_append_eq]
      have hopen : (fsRun fs0 [FsOp.mkdirs, FsOp.fopen tmp]) tmp = some [] := by
        simp [fsRun, fsApply]
      rw [fsRun_writeOps_self tmp chunks _ [] hopen]
      simp
    by_cases hm2 : n - ([FsOp.mkdirs, FsOp.fopen tmp] ++ writeOps tmp chunks).length = 1
    · left
      rw [hm2]
      rw [show ([FsOp.fclose tmp, FsOp.frename tmp fin]).take 1 = [FsOp.fclose tmp] from rfl]
      rw [fsRun_append_eq]
      show fsApply (fsRun fs0 ([FsOp.mkdirs, FsOp.fopen tmp] ++ writeOps tmp chunks))
        (FsOp.fclose tmp) fin = fs0 fin
      exact hfront
    · right
      have hm3 : 2 ≤ n - ([FsOp.mkdirs, FsOp.fopen tmp] ++ writeOps tmp chunks).length := by
        omega
      rw [List.take_of_length_le (by simpa using hm3)]
      rw [fsRun_append_eq]
      show fsApply (fsApply (fsRun fs0 ([FsOp.mkdirs, FsOp.fopen tmp] ++ writeOps tmp chunks))
        (FsOp.fclose tmp)) (FsOp.frename tmp fin) fin = some chunks.flatten
      have hfe : ¬ fin = tmp := fun e => hne e.symm
      simp [fsApply, hfe]
      simpa using htmp

theorem saveWith_ops_shape (rc : ShaderSt → COut) (env : Env) (st : ShaderSt) :
    (saveWith rc env st).ops = [] ∨
    (saveWith rc env st).ops = [FsOp.mkdirs] ∨
    (∃ hdr, (saveWith rc env st).ops
      = [FsOp.mkdirs, FsOp.fopen (st.hashFile ++ ".tmp"),
          FsOp.fwrite (st.hashFile ++ ".tmp") hdr]) ∨
    (∃ chunks, (saveWith rc env st).ops
      = ([FsOp.mkdirs, FsOp.fopen (st.hashFile ++ ".tmp")]
          ++ writeOps (st.hashFile ++ ".tmp") chunks)
        ++ [FsOp.fclose (st.hashFile ++ ".tmp"),
            FsOp.frename (st.hashFile ++ ".tmp") st.hashFile]) := by
  by_cases hst : st.result.status = Status.compiled
  · rcases hgs : getHashS env.hB st.hash with ⟨h0, hs⟩
    by_cases hop : env.openTempOk = false
    · right; left
      simp [saveWith, hst, hop, hgs]
    · have hcomp : ({ st with hash := hs } : ShaderSt).result.status = .compiled := hst
      have hloop := saveLoop_ops rc env env.layout { st with hash := hs } hcomp
      cases hca : (saveLoop rc env env.layout { st with hash := hs }).crash with
      | true =>
          right; right; left
          refine ⟨encodeHeaderS ⟨CACHE_MAGIC, CACHE_VERSION, env.slangVer, profileBytes,
            saveContentHash env.hB h0 st.optimize⟩, ?_⟩
          simp [saveWith, hst, hop, hgs, hca, hloop]
      | false =>
          cases haa : (saveLoop rc env env.layout { st with hash := hs }).aborted with
          | true =>
              right; right; left
              refine ⟨encodeHeaderS ⟨CACHE_MAGIC, CACHE_VERSION, env.slangVer, profileBytes,
                saveContentHash env.hB h0 st.optimize⟩, ?_⟩
              simp [saveWith, hst, hop, hgs, hca, haa, hloop]
          | false =>
              right; right; right
              refine ⟨encodeHeaderS ⟨CACHE_MAGIC, CACHE_VERSION, env.slangVer, profileBytes,
                saveContentHash env.hB h0 st.optimize⟩ ::
                leBytes 4 (saveLoop rc env env.layout
                  { st with hash := hs }).st.cachedCodes.length ::
                ((saveLoop rc env env.layout
                  { st with hash := hs }).st.cachedCodes.map recordChunks).flatten, ?_⟩
              simp [saveWith, hst, hop, hgs, hca, haa, hloop, writeOps]
  · left
    simp [saveWith, hst]

theorem shape4_mem (tmp fin : String) (chunks : List Bytes) (op : FsOp)
    (hop : op ∈ [FsOp.mkdirs, FsOp.fopen tmp] ++ writeOps tmp chunks
      ++ [FsOp.fclose tmp, FsOp.frename tmp fin]) :
    op = FsOp.mkdirs ∨ op = FsOp.fopen tmp ∨ (∃ b, op = FsOp.fwrite tmp b) ∨
      op = FsOp.fclose tmp ∨ op = FsOp.frename tmp fin := by
  rcases List.mem_append.mp hop with h12 | h3
  · rcases List.mem_append.mp h12 with h1 | h2
    · simp only [List.mem_cons] at h1
      rcases h1 with rfl | rfl | h1
      · exact Or.inl rfl
      · exact Or.inr (Or.inl rfl)
      · cases h1
    · rcases List.mem_map.mp h2 with ⟨c, -, rfl⟩
      exact Or.inr (Or.inr (Or.inl ⟨c, rfl⟩))
  · simp only [List.mem_cons] at h3
    rcases h3 with rfl | rfl | h3
    · exact Or.inr (Or.inr (Or.inr (Or.inl rfl)))
    · exact Or.inr (Or.inr (Or.inr (Or.inr rfl)))
    · cases h3

/-- C5: `saveCodeCache` never writes the final cache path directly. Every
write and open in its filesystem trace targets the temporary sibling path
`m_HashFile + ".tmp"`; when the rename appears at all, it is the very last
operation, immediately after the close of the temp stream and after every
write; and replaying any prefix of the trace against any initial filesystem
leaves the final path holding either its previous content or the complete
new file (the concatenation of all writes of the trace), never a partial
file. -/
theorem C5_save_is_atomic :
    ∀ (rc : ShaderSt → COut) (env : Env) (st : ShaderSt) (fs0 : String → Option Bytes),
      (∀ p b, FsOp.fwrite p b ∈ (saveWith rc env st).ops → p = st.hashFile ++ ".tmp") ∧
      (∀ p, FsOp.fopen p ∈ (saveWith rc env st).ops → p = st.hashFile ++ ".tmp") ∧
      (∃ ws, (∀ s d, FsOp.frename s d ∉ ws) ∧
        ((saveWith rc env st).ops = ws ∨
          (saveWith rc env st).ops
            = ws ++ [FsOp.fclose (st.hashFile ++ ".tmp"),
                FsOp.frename (st.hashFile ++ ".tmp") st.hashFile])) ∧
      (∀ n, fsRun fs0 ((saveWith rc env st).ops.take n) st.hashFile = fs0 st.hashFile ∨
        fsRun fs0 ((saveWith rc env st).ops.take n) st.hashFile
          = some (writesJoin (saveWith rc env st).ops)) := by
  intro rc env st fs0
  have hne : st.hashFile ++ ".tmp" ≠ st.hashFile := tmp_ne st.hashFile
  rcases saveWith_ops_shape rc env st with h | h | ⟨hdr, h⟩ | ⟨chunks, h⟩
  · refine ⟨?_, ?_, ⟨[], by simp, Or.inl h⟩, ?_⟩
    · intro p b hm; rw [h] at hm; cases hm
    · intro p hm; rw [h] at hm; cases hm
    · intro n; left
      rw [h]
      cases n <;> rfl
  · refine ⟨?_, ?_, ⟨[FsOp.mkdirs], by simp, Or.inl h⟩, ?_⟩
    · intro p b hm; rw [h] at hm; simp at hm
    · intro p hm; rw [h] at hm; simp at hm
    · intro n; left
      rw [h]
      refine fsRun_keeps st.hashFile _ (fun op hop => ?_) fs0
      have := List.take_subset n [FsOp.mkdirs] hop
      simp at this
      subst this
      trivial
  · refine ⟨?_, ?_, ⟨_, ?_, Or.inl h⟩, ?_⟩
    · intro p b hm; rw [h] at hm
      simp at hm
      obtain ⟨rfl, -⟩ := hm
      rfl
    · intro p hm; rw [h] at hm
      simp at hm
      rw [hm]
    · intro s d hm
      simp at hm
    · intro n; left
      rw [h]
      refine fsRun_keeps st.hashFile _ (fun op hop => ?_) fs0
      have hsub := List.take_subset n _ hop
      simp only [List.mem_cons, List.mem_singleton] at hsub
      rcases hsub with rfl | rfl | rfl | hfalse
      · trivial
      · exact hne
      · exact hne
      · cases hfalse
  · refine ⟨?_, ?_, ⟨[FsOp.mkdirs, FsOp.fopen (st.hashFile ++ ".tmp")]
        ++ writeOps (st.hashFile ++ ".tmp") chunks, ?_, Or.inr ?_⟩, ?_⟩
    · intro p b hm; rw [h] at hm
      rcases shape4_mem _ _ _ _ hm with h1 | h1 | ⟨c, h1⟩ | h1 | h1
      · cases h1
      · cases h1
      · cases h1; rfl
      · cases h1
      · cases h1
    · intro p hm; rw [h] at hm
      rcases shape4_mem _ _ _ _ hm with h1 | h1 | ⟨c, h1⟩ | h1 | h1
      · cases h1
      · cases h1; rfl
      · cases h1
      · cases h1
      · cases h1
    · intro sP dP hm
      rcases List.mem_append.mp hm with h1 | h2
      · simp only [List.mem_cons] at h1
        rcases h1 with h1 | h1 | h1
        · cases h1
        · cases h1
        · cases h1
      · rcases List.mem_map.mp h2 with ⟨c, -, hc⟩
        cases hc
    · exact h
    · intro n
      rw [h, writesJoin_shape]
      exact save_prefix_atomic (st.hashFile ++ ".tmp") st.hashFile hne chunks fs0 n

/-- Witness for C5: on a concrete compiled shader the open targets the temp
path, and the length-3 trace prefix leaves the final path unchanged. -/
theorem C5_save_is_atomic_witness :
    "shader.cache" ++ ".tmp" = stCompiled.hashFile ++ ".tmp" ∧
    (fsRun (fun _ => none) ((saveWith rcDummy envW stCompiled).ops.take 3)
        stCompiled.hashFile = (fun _ : String => (none : Option Bytes)) stCompiled.hashFile ∨
      fsRun (fun _ => none) ((saveWith rcDummy envW stCompiled).ops.take 3)
        stCompiled.hashFile = some (writesJoin (saveWith rcDummy envW stCompiled).ops)) :=
  ⟨(C5_save_is_atomic rcDummy envW stCompiled (fun _ => none)).2.1
      ("shader.cache" ++ ".tmp") (by decide),
    (C5_save_is_atomic rcDummy envW stCompiled (fun _ => none)).2.2.2 3⟩

end Shader
